import Mathlib

/-!
Shallow embedding of the ocean-current engine of `src/services/physics/ocean.ts`
(`computeOceanCurrents`).  JavaScript numbers are modelled as exact rationals;
`Math.sqrt` is kept abstract as a parameter `sq : ℚ → ℚ` (theorems hold for any
square-root implementation, and concrete evaluations instantiate it with an
exact rational square root that agrees with the real square root at every point
where the concrete runs sample it).  `Math.random()` is modelled as an ambient
stream `rng : ℕ → ℚ` together with a counter that advances once per call, which
captures unseeded randomness: two runs of the program correspond to two
arbitrary streams.
-/

namespace ExoClim

/-- Truncation toward zero, as JavaScript coerces in `Math.trunc` and as the
remainder operator `%` divides. -/
def jsTrunc (q : ℚ) : ℤ := if 0 ≤ q then ⌊q⌋ else ⌈q⌉

/-- JavaScript remainder `a % n` on numbers (sign follows the dividend) for a
nonzero modulus; for `n = 0` JavaScript yields `NaN`, which this total model
maps to `a` (no call site below feeds modulus 0 into it). -/
def jsFmod (a n : ℚ) : ℚ := a - n * jsTrunc (a / n)

/-- JavaScript `Math.round`: round half toward positive infinity. -/
def jsRound (q : ℚ) : ℤ := ⌊q + 1/2⌋

/-- Fuelled integer square-root iteration (Newton steps), used to build the
executable square root for concrete evaluations. -/
def isqrtAux (n : ℕ) : ℕ → ℕ → ℕ
  | 0, g => g
  | fuel + 1, g =>
    let g' := (g + n / g) / 2
    if g' < g then isqrtAux n fuel g' else g

/-- Executable integer square root (exact on perfect squares). -/
def isqrt (n : ℕ) : ℕ := if n ≤ 1 then n else isqrtAux n n (n / 2)

/-- Executable rational square root used to instantiate the abstract `sq`
parameter in concrete runs; it is exact whenever numerator and denominator are
perfect squares, which holds at every point the concrete runs below sample. -/
def ratSqrt (q : ℚ) : ℚ := if q ≤ 0 then 0 else (isqrt q.num.toNat : ℚ) / (isqrt q.den : ℚ)

/-- Grid cell as consumed by the engine: `{lat, lon, distCoast}` plus the
`collisionMask` slot the engine writes back for visualization. -/
structure GridCell where
  lat : ℚ
  lon : ℚ
  distCoast : ℚ
  collisionMask : ℚ
deriving DecidableEq, Repr

instance : Inhabited GridCell := ⟨⟨0, 0, 0, 0⟩⟩

/-- Tunable physics constants read by `computeOceanCurrents`. -/
structure PhysicsParams where
  oceanBaseSpeed : ℚ
  oceanCollisionBuffer : ℚ
  oceanSmoothing : ℕ
  oceanPatternForce : ℚ
  oceanDeflectLat : ℚ
  oceanStreamlineSteps : ℕ
  oceanEcLatGap : ℚ
  oceanEcPolewardDrift : ℚ
  oceanEcPatternForce : ℚ
  oceanEcDamping : ℚ
deriving DecidableEq, Repr

/-- Grid resolution configuration. -/
structure SimulationConfig where
  resolutionLat : ℕ
  resolutionLon : ℕ
deriving DecidableEq, Repr

/-- One recorded trajectory sample. -/
structure StreamlinePoint where
  x : ℚ
  y : ℚ
  lon : ℚ
  lat : ℚ
  vx : ℚ
  vy : ℚ
deriving DecidableEq, Repr

/-- Source tag of a recorded impact point. -/
inductive ImpactType where
  | ECC
  | EC
deriving DecidableEq, Repr

/-- Impact point as returned to the caller. -/
structure OceanImpact where
  x : ℚ
  y : ℚ
  lat : ℚ
  lon : ℚ
  type : ImpactType
deriving DecidableEq, Repr

/-- Streamline tag. -/
inductive StreamType where
  | main
  | split_n
  | split_s
deriving DecidableEq, Repr

/-- Assembled output streamline. -/
structure OceanStreamline where
  points : List StreamlinePoint
  strength : ℚ
  type : StreamType
deriving DecidableEq, Repr

/-- Internal phase-1 record of a safe spawn coordinate for phase 2. -/
structure ImpactPointTemp where
  x : ℚ
  y : ℚ
  lat : ℚ
  lon : ℚ
deriving DecidableEq, Repr

/-- Agent current type. -/
inductive AgentType where
  | ECC
  | EC_N
  | EC_S
deriving DecidableEq, Repr

/-- Ghost annotation recording which code path deactivated an agent.  The
source stores only `active : boolean`; this field is pure instrumentation of
control flow and never feeds back into any computed value. -/
inductive Cause where
  | pruned
  | impact
  | speedFloor
  | deflection
  | polarExit
  | stuckInside
deriving DecidableEq, Repr

/-- Simulation agent (`interface Agent` of ocean.ts) plus the ghost `cause`. -/
structure Agent where
  id : ℕ
  active : Bool
  x : ℚ
  y : ℚ
  vx : ℚ
  vy : ℚ
  strength : ℚ
  type : AgentType
  cause : Option Cause
deriving DecidableEq, Repr

instance : Inhabited Agent := ⟨⟨0, false, 0, 0, 0, 0, 0, .ECC, none⟩⟩

/-- Diagnostic log entry type (`OceanDiagnosticLog`); ocean.ts declares the
array and returns it but never pushes an element. -/
structure OceanDiagnosticLog where
  type : String
  x : ℚ
  y : ℚ
  lat : ℚ
  lon : ℚ
  age : ℕ
  message : String
deriving DecidableEq, Repr

/-- Result of sampling field and gradient at a fractional coordinate. -/
structure Env where
  dist : ℚ
  gx : ℚ
  gy : ℚ
deriving DecidableEq, Repr

/-- Flat-index helper `getIdx` of ocean.ts: wrap the column toroidally, clamp
the row, floor both. -/
def getIdx (cols rows : ℕ) (c r : ℚ) : ℕ :=
  let cc := jsFmod (jsFmod c cols + cols) cols
  let rr := max 0 (min ((rows : ℚ) - 1) r)
  (⌊rr⌋).toNat * cols + (⌊cc⌋).toNat

/-- Row → latitude conversion of ocean.ts. -/
def getLatFromRow (rows : ℕ) (r : ℚ) : ℚ := 90 - r / ((rows : ℚ) - 1) * 180

/-- Latitude → row conversion of ocean.ts. -/
def getRowFromLat (rows : ℕ) (lat : ℚ) : ℚ := (90 - lat) / 180 * ((rows : ℚ) - 1)

/-- Column → longitude conversion of ocean.ts. -/
def getLonFromCol (cols : ℕ) (c : ℚ) : ℚ := -180 + c / (cols : ℚ) * 360

/-- Raw collision field: `grid[i].distCoast + phys.oceanCollisionBuffer` on a
`rows*cols` buffer (cells beyond the supplied grid stay zero, as a typed array
would). -/
def collisionFieldInit (grid : List GridCell) (buffer : ℚ) (rows cols : ℕ) : List ℚ :=
  (List.range (rows * cols)).map fun (i : ℕ) =>
    if i < grid.length then (grid.getD i default).distCoast + buffer else 0

/-- One smoothing pass of ocean.ts: every cell is replaced (simultaneously,
via a fresh buffer) by `sum/count` over its 3×3 neighbourhood, with the row
clamped to `[0, rows-1]` and the column wrapped by the JavaScript remainder
chain `((c+dc) % cols + cols) % cols`; `count` is always 9. -/
def smoothStepField (rows cols : ℕ) (f : List ℚ) : List ℚ :=
  (List.range rows).flatMap fun (r : ℕ) =>
    (List.range cols).map fun (c : ℕ) =>
      (((List.range 3).flatMap fun (dri : ℕ) =>
        (List.range 3).map fun (dci : ℕ) =>
          let dr : ℤ := (dri : ℤ) - 1
          let dc : ℤ := (dci : ℤ) - 1
          let nr : ℤ := min (max ((r : ℤ) + dr) 0) ((rows : ℤ) - 1)
          let nc : ℤ := (((c : ℤ) + dc).tmod (cols : ℤ) + (cols : ℤ)).tmod (cols : ℤ)
          f.getD (nr * (cols : ℤ) + nc).toNat 0).sum) / 9

/-- Smoothed collision field: `phys.oceanSmoothing` iterations of the box
blur applied to the initialized field. -/
def oceanCollisionField (grid : List GridCell) (phys : PhysicsParams) (rows cols : ℕ) : List ℚ :=
  (smoothStepField rows cols)^[phys.oceanSmoothing]
    (collisionFieldInit grid phys.oceanCollisionBuffer rows cols)

/-- Central-difference x-gradient of the smoothed field (points toward land). -/
def distGradXField (rows cols : ℕ) (f : List ℚ) : List ℚ :=
  (List.range rows).flatMap fun (r : ℕ) =>
    (List.range cols).map fun (c : ℕ) =>
      (f.getD (getIdx cols rows ((c : ℚ) + 1) (r : ℚ)) 0
        - f.getD (getIdx cols rows ((c : ℚ) - 1) (r : ℚ)) 0) * (1/2)

/-- Central-difference y-gradient of the smoothed field. -/
def distGradYField (rows cols : ℕ) (f : List ℚ) : List ℚ :=
  (List.range rows).flatMap fun (r : ℕ) =>
    (List.range cols).map fun (c : ℕ) =>
      (f.getD (getIdx cols rows (c : ℚ) ((r : ℚ) + 1)) 0
        - f.getD (getIdx cols rows (c : ℚ) ((r : ℚ) - 1)) 0) * (1/2)

/-- Bilinear environment sampler `getEnvironment` of ocean.ts. -/
def getEnvironment (cols rows : ℕ) (field gX gY : List ℚ) (x y : ℚ) : Env :=
  let c : ℤ := ⌊x⌋
  let r : ℤ := ⌊y⌋
  let fx : ℚ := x - c
  let fy : ℚ := y - r
  let idx00 := getIdx cols rows (c : ℚ) (r : ℚ)
  let idx10 := getIdx cols rows ((c : ℚ) + 1) (r : ℚ)
  let idx01 := getIdx cols rows (c : ℚ) ((r : ℚ) + 1)
  let idx11 := getIdx cols rows ((c : ℚ) + 1) ((r : ℚ) + 1)
  let interp : ℚ → ℚ → ℚ → ℚ → ℚ := fun v00 v10 v01 v11 =>
    v00 * (1 - fx) * (1 - fy) + v10 * fx * (1 - fy) + v01 * (1 - fx) * fy + v11 * fx * fy
  { dist := interp (field.getD idx00 0) (field.getD idx10 0) (field.getD idx01 0) (field.getD idx11 0)
    gx := interp (gX.getD idx00 0) (gX.getD idx10 0) (gX.getD idx01 0) (gX.getD idx11 0)
    gy := interp (gY.getD idx00 0) (gY.getD idx10 0) (gY.getD idx01 0) (gY.getD idx11 0) }

/-- Westward raycast of `findSafeSpawnX`, fuelled by the 40-iteration budget. -/
def findSafeSpawnAux (cols rows : ℕ) (field gX gY : List ℚ) (startX y : ℚ) :
    ℕ → ℚ → ℚ
  | 0, _ => startX - 10
  | fuel + 1, currX =>
    if (getEnvironment cols rows field gX gY currX y).dist < -10 then currX - 1
    else findSafeSpawnAux cols rows field gX gY startX y fuel (currX - 1/2)

/-- `findSafeSpawnX` of ocean.ts: raycast westward from the hit point until the
field drops below the deep-water threshold `-10`, then back off one more cell;
give up after 40 half-cell steps and return `startX - 10`. -/
def findSafeSpawnX (cols rows : ℕ) (field gX gY : List ℚ) (startX y : ℚ) : ℚ :=
  findSafeSpawnAux cols rows field gX gY startX y 40 startX

/-- Spatial pruning cache update `updateAndCheckPruning`: returns whether the
agent is pruned together with the (possibly) updated flow grids.  A fresh cell
caches the velocity; an occupied cell compares cosine similarity against the
cached representative. -/
def updateAndCheckPruning (sq : ℚ → ℚ) (cols rows : ℕ)
    (U V : List ℚ) (C : List ℕ) (x y vx vy : ℚ) :
    Bool × List ℚ × List ℚ × List ℕ :=
  let idx := getIdx cols rows (jsRound x : ℚ) (jsRound y : ℚ)
  if C.getD idx 0 = 0 then
    (false, U.set idx vx, V.set idx vy, C.set idx 1)
  else
    let ex := U.getD idx 0
    let ey := V.getD idx 0
    let dot := vx * ex + vy * ey
    let len1 := sq (vx * vx + vy * vy)
    let len2 := sq (ex * ex + ey * ey)
    let sim := dot / (len1 * len2 + 1/10000)
    if sim > 95/100 then (true, U, V, C) else (false, U, V, C)

/-- Four-iteration bisection of both collision branches: binary-search the
crossing point along the segment, keeping the last midpoint as the hit. -/
def bisectHit (cols rows : ℕ) (field gX gY : List ℚ) (ax ay nextX nextY : ℚ) :
    ℚ × ℚ :=
  let step : (ℚ × ℚ × ℚ × ℚ) → (ℚ × ℚ × ℚ × ℚ) := fun s =>
    let tLow := s.1
    let tHigh := s.2.1
    let tMid := (tLow + tHigh) * (1/2)
    let mx := ax + (nextX - ax) * tMid
    let my := ay + (nextY - ay) * tMid
    if (getEnvironment cols rows field gX gY mx my).dist > 0 then (tLow, tMid, mx, my)
    else (tMid, tHigh, mx, my)
  let r := step^[4] (0, 1, ax, ay)
  (r.2.2.1, r.2.2.2)

/-- Sub-step accumulator of the phase-1 (ECC) inner loop. -/
structure Sub1 where
  agent : Agent
  dead : Bool
  impacts : List OceanImpact
  temps : List ImpactPointTemp
deriving DecidableEq, Repr

/-- Tail of a phase-1 sub-step (the code after the collision branches): clamp
speed to 2.5× base, terminate below the speed floor, store the velocity, then
terminate if latitude deflects beyond 1.5× `oceanDeflectLat` from the ITCZ
target of the pre-move longitude. -/
def p1Tail (sq : ℚ → ℚ) (rows : ℕ) (phys : PhysicsParams) (itczAtLon : ℚ)
    (a : Agent) (nvx nvy : ℚ) (imps : List OceanImpact) (temps : List ImpactPointTemp) : Sub1 :=
  let speed := sq (nvx * nvx + nvy * nvy)
  let maxSpeed := phys.oceanBaseSpeed * (5/2)
  let v := if speed > maxSpeed then (nvx / speed * maxSpeed, nvy / speed * maxSpeed) else (nvx, nvy)
  if speed < 1/100 then
    ⟨{ a with active := false, cause := some .speedFloor }, true, imps, temps⟩
  else
    let a := { a with vx := v.1, vy := v.2 }
    let nextLat := getLatFromRow rows a.y
    if |nextLat - itczAtLon| > phys.oceanDeflectLat * (3/2) then
      ⟨{ a with active := false, cause := some .deflection }, true, imps, temps⟩
    else
      ⟨a, false, imps, temps⟩

/-- One phase-1 sub-step: constant eastward acceleration plus the ITCZ spring,
raycast collision detection with bisection, head-on impact recording (with the
safe phase-2 spawn backtrack), glancing slide, stale-overlap push-out, and the
shared tail. -/
def phase1Substep (sq : ℚ → ℚ) (cols rows : ℕ) (field gX gY : List ℚ)
    (itcz : List ℚ) (phys : PhysicsParams) (st : Sub1) : Sub1 :=
  if st.dead then st else
  let a := st.agent
  let baseAx := phys.oceanBaseSpeed * (1/20)
  let lonIdx := (⌊jsFmod (jsFmod a.x cols + cols) cols⌋).toNat
  let targetLat := itcz.getD lonIdx 0
  let targetY := getRowFromLat rows targetLat
  let ayItcz := (targetY - a.y) * phys.oceanPatternForce
  let nvx := a.vx + baseAx
  let nvy := a.vy + ayItcz
  let nextX := a.x + nvx * (1/20)
  let nextY := a.y + nvy * (1/20)
  let distOld := (getEnvironment cols rows field gX gY a.x a.y).dist
  let e := getEnvironment cols rows field gX gY nextX nextY
  if e.dist > 0 ∧ distOld ≤ 0 then
    let hit := bisectHit cols rows field gX gY a.x a.y nextX nextY
    let h := getEnvironment cols rows field gX gY hit.1 hit.2
    let gradLen := sq (h.gx * h.gx + h.gy * h.gy)
    let nx := if gradLen > 0 then h.gx / gradLen else 0
    let ny := if gradLen > 0 then h.gy / gradLen else 0
    let vDotN := nvx * nx + nvy * ny
    if vDotN > 1/20 then
      let safeSpawnX := findSafeSpawnX cols rows field gX gY hit.1 hit.2
      ⟨{ a with active := false, cause := some .impact }, true,
        st.impacts ++ [⟨hit.1, hit.2, getLatFromRow rows hit.2, getLonFromCol cols hit.1, .ECC⟩],
        st.temps ++ [⟨safeSpawnX, hit.2, getLatFromRow rows hit.2, getLonFromCol cols safeSpawnX⟩]⟩
    else
      let nvx' := nvx - vDotN * nx
      let nvy' := nvy - vDotN * ny
      let a := { a with x := hit.1 - nx * (1/10), y := hit.2 - ny * (1/10) }
      p1Tail sq rows phys (itcz.getD lonIdx 0) a nvx' nvy' st.impacts st.temps
  else if e.dist > 0 then
    let gradLen := sq (e.gx * e.gx + e.gy * e.gy)
    if gradLen > 1/10000 then
      let nx := e.gx / gradLen
      let ny := e.gy / gradLen
      let pushFactor := e.dist + 1/10
      let a := { a with x := a.x - nx * pushFactor, y := a.y - ny * pushFactor }
      p1Tail sq rows phys (itcz.getD lonIdx 0) a nvx nvy st.impacts st.temps
    else
      p1Tail sq rows phys (itcz.getD lonIdx 0) a nvx nvy st.impacts st.temps
  else
    let a := { a with x := nextX, y := nextY }
    p1Tail sq rows phys (itcz.getD lonIdx 0) a nvx nvy st.impacts st.temps

/-- Trajectory sample of the current agent state. -/
def mkPoint (cols rows : ℕ) (a : Agent) : StreamlinePoint :=
  ⟨a.x, a.y, getLonFromCol cols a.x, getLatFromRow rows a.y, a.vx, a.vy⟩

/-- Mutable state of one phase-1 pass. -/
structure P1State where
  agents : List Agent
  pts : List (List StreamlinePoint)
  impacts : List OceanImpact
  temps : List ImpactPointTemp
  flowU : List ℚ
  flowV : List ℚ
  flowC : List ℕ
deriving DecidableEq, Repr

/-- Process one phase-1 agent for one outer step: pruning check (only once the
trajectory exceeds 5 samples), ten sub-steps, then append the trajectory
sample unless the agent died during the sub-steps. -/
def processAgent1 (sq : ℚ → ℚ) (cols rows : ℕ) (field gX gY : List ℚ)
    (itcz : List ℚ) (phys : PhysicsParams) (s : P1State) (i : ℕ) : P1State :=
  let a := s.agents.getD i default
  let pruned :=
    if (s.pts.getD a.id []).length > 5 then
      updateAndCheckPruning sq cols rows s.flowU s.flowV s.flowC a.x a.y a.vx a.vy
    else
      (false, s.flowU, s.flowV, s.flowC)
  let s := { s with flowU := pruned.2.1, flowV := pruned.2.2.1, flowC := pruned.2.2.2 }
  if pruned.1 then
    { s with agents := s.agents.set i { a with active := false, cause := some .pruned } }
  else
    let r := (phase1Substep sq cols rows field gX gY itcz phys)^[10] ⟨a, false, s.impacts, s.temps⟩
    let s := { s with agents := s.agents.set i r.agent, impacts := r.impacts, temps := r.temps }
    if r.dead then s
    else { s with pts := s.pts.set r.agent.id ((s.pts.getD r.agent.id []) ++ [mkPoint cols rows r.agent]) }

/-- One outer phase-1 step: snapshot the agents active at step start and fold
the per-agent processing over them in id order. -/
def phase1Step (sq : ℚ → ℚ) (cols rows : ℕ) (field gX gY : List ℚ)
    (itcz : List ℚ) (phys : PhysicsParams) (s : P1State) : P1State :=
  let ids := (List.range s.agents.length).filter fun i => (s.agents.getD i default).active
  ids.foldl (processAgent1 sq cols rows field gX gY itcz phys) s

/-- Phase-1 outer loop: up to `fuel` steps, stopping early once no agent is
active (the `break` of the source). -/
def phase1Loop (sq : ℚ → ℚ) (cols rows : ℕ) (field gX gY : List ℚ)
    (itcz : List ℚ) (phys : PhysicsParams) : ℕ → P1State → P1State
  | 0, s => s
  | fuel + 1, s =>
    if s.agents.all (fun a => !a.active) then s
    else phase1Loop sq cols rows field gX gY itcz phys fuel
      (phase1Step sq cols rows field gX gY itcz phys s)

/-- Phase-1 spawn rule: for every longitude column, locate the ITCZ row, skip
rows outside the grid and columns whose sampled field is above the strict
open-water threshold `-20`, then spawn when the immediately-west cell of the
smoothed field is a wall or the column index passes the JavaScript gap-fill
test `c % gapFillInterval === 0` (with interval 0 the JavaScript remainder is
`NaN`, which never equals 0, so the test spawns nothing). -/
def eccSpawnList (cols rows : ℕ) (field gX gY : List ℚ) (itcz : List ℚ)
    (phys : PhysicsParams) : List Agent :=
  let gapFillInterval := cols / 64
  (List.range cols).foldl
    (fun acc c =>
      let itczLat := itcz.getD c 0
      let r := getRowFromLat rows itczLat
      if r < 0 ∨ (rows : ℚ) ≤ r then acc
      else
        let env := getEnvironment cols rows field gX gY (c : ℚ) r
        if env.dist > -20 then acc
        else
          let westIdx := getIdx cols rows ((c : ℚ) - 1) (jsRound r : ℚ)
          let westIsWall := field.getD westIdx 0 > 0
          let shouldSpawn := westIsWall ∨ (gapFillInterval ≠ 0 ∧ c % gapFillInterval = 0)
          if shouldSpawn then
            acc ++ [⟨acc.length, true, (c : ℚ), r, phys.oceanBaseSpeed, 0, 2, .ECC, none⟩]
          else acc)
    []

/-- Streamline assembly for one agent class: a trajectory is emitted exactly
when it holds strictly more than 5 samples. -/
def assembleLines (pts : List (List StreamlinePoint)) (ty : Agent → StreamType)
    (agents : List Agent) : List OceanStreamline :=
  agents.foldl
    (fun acc a =>
      if (pts.getD a.id []).length > 5 then
        acc ++ [⟨pts.getD a.id [], a.strength, ty a⟩]
      else acc)
    []

/-- Effective phase-2 vertical damping coefficient: the configured
`oceanEcDamping`, blended linearly toward
`max(oceanEcDamping, 1.5 * (2 * sqrt k))` as `|errorY|` shrinks inside the
3-row window. -/
def ecDampingAt (sq : ℚ → ℚ) (k damping errorY : ℚ) : ℚ :=
  let criticalDamping := 2 * sq k
  if |errorY| < 3 then
    let factor := (3 - |errorY|) / 3
    let targetDamping := max damping (criticalDamping * (3/2))
    damping * (1 - factor) + targetDamping * factor
  else damping

/-- Phase-2 vertical control acceleration: proportional term minus the
velocity times the effective damping. -/
def ecAccel (sq : ℚ → ℚ) (k damping errorY vy : ℚ) : ℚ :=
  errorY * k + (-vy * ecDampingAt sq k damping errorY)

/-- Sub-step accumulator of the phase-2 (EC) inner loop; `rngIdx` counts the
`Math.random()` draws consumed so far. -/
structure Sub2 where
  agent : Agent
  dead : Bool
  impacts : List OceanImpact
  rngIdx : ℕ
deriving Repr

/-- Tail of a phase-2 sub-step: clamp speed to 2× base, speed-floor
termination, velocity store, polar exit above 85° latitude. -/
def p2Tail (sq : ℚ → ℚ) (rows : ℕ) (phys : PhysicsParams)
    (a : Agent) (nvx nvy : ℚ) (imps : List OceanImpact) (rngIdx : ℕ) : Sub2 :=
  let speed := sq (nvx * nvx + nvy * nvy)
  let maxSpeed := phys.oceanBaseSpeed * 2
  let v := if speed > maxSpeed then (nvx / speed * maxSpeed, nvy / speed * maxSpeed) else (nvx, nvy)
  if speed < 1/100 then
    ⟨{ a with active := false, cause := some .speedFloor }, true, imps, rngIdx⟩
  else
    let a := { a with vx := v.1, vy := v.2 }
    if |getLatFromRow rows a.y| > 85 then
      ⟨{ a with active := false, cause := some .polarExit }, true, imps, rngIdx⟩
    else
      ⟨a, false, imps, rngIdx⟩

/-- One phase-2 sub-step: westward drive, PD latitude control with adaptive
damping, soft repulsion inside the 50-cell buffer, bisected hard collision
(with the randomly thinned EC impact recording and frictioned slide),
stale-overlap recovery, and the shared tail.  `Math.random()` is drawn exactly
when the head-on branch is reached, advancing `rngIdx` whether or not the
impact is recorded. -/
def phase2Substep (sq : ℚ → ℚ) (rng : ℕ → ℚ) (cols rows : ℕ)
    (field gX gY : List ℚ) (itcz : List ℚ) (phys : PhysicsParams) (st : Sub2) : Sub2 :=
  if st.dead then st else
  let a := st.agent
  let baseAx := -phys.oceanBaseSpeed * (1/20)
  let lonIdx := (⌊jsFmod (jsFmod a.x cols + cols) cols⌋).toNat
  let baseItczLat := itcz.getD lonIdx 0
  let targetLat := if a.type = .EC_N then baseItczLat + phys.oceanEcLatGap
                   else baseItczLat - phys.oceanEcLatGap
  let targetY := getRowFromLat rows targetLat
  let errorY := targetY - a.y
  let ayControl := ecAccel sq phys.oceanEcPatternForce phys.oceanEcDamping errorY a.vy
  let nvx0 := a.vx + baseAx
  let nvy0 := a.vy + ayControl
  let distOld := (getEnvironment cols rows field gX gY a.x a.y).dist
  let nextX := a.x + nvx0 * (1/20)
  let nextY := a.y + nvy0 * (1/20)
  let e := getEnvironment cols rows field gX gY nextX nextY
  let v1 :=
    if e.dist > -50 then
      let gradLen := sq (e.gx * e.gx + e.gy * e.gy)
      if gradLen > 1/10000 then
        let nx := e.gx / gradLen
        let ny := e.gy / gradLen
        let repulsion := (8/10) * (1 - e.dist / (-50))
        (nvx0 - nx * repulsion, nvy0 - ny * repulsion)
      else (nvx0, nvy0)
    else (nvx0, nvy0)
  let nvx := v1.1
  let nvy := v1.2
  if e.dist > 0 ∧ distOld ≤ 0 then
    let hit := bisectHit cols rows field gX gY a.x a.y nextX nextY
    let h := getEnvironment cols rows field gX gY hit.1 hit.2
    let gradLen := sq (h.gx * h.gx + h.gy * h.gy)
    let nx := if gradLen > 0 then h.gx / gradLen else 0
    let ny := if gradLen > 0 then h.gy / gradLen else 0
    let vDotN := nvx * nx + nvy * ny
    if vDotN > 1/20 then
      let imps :=
        if rng st.rngIdx < 1/10 then
          st.impacts ++ [⟨hit.1, hit.2, getLatFromRow rows hit.2, getLonFromCol cols hit.1, .EC⟩]
        else st.impacts
      let nvx' := (nvx - vDotN * nx) * (9/10)
      let nvy' := (nvy - vDotN * ny) * (9/10)
      let a := { a with x := hit.1 - nx * (1/10), y := hit.2 - ny * (1/10) }
      p2Tail sq rows phys a nvx' nvy' imps (st.rngIdx + 1)
    else
      let nvx' := nvx - vDotN * nx
      let nvy' := nvy - vDotN * ny
      let a := { a with x := hit.1 - nx * (1/10), y := hit.2 - ny * (1/10) }
      p2Tail sq rows phys a nvx' nvy' st.impacts st.rngIdx
  else if e.dist > 0 then
    let gradLen := sq (e.gx * e.gx + e.gy * e.gy)
    if gradLen > 1/10000 then
      let nx := e.gx / gradLen
      let ny := e.gy / gradLen
      let pushOut := e.dist + 1/10
      let a := { a with x := a.x - nx * pushOut, y := a.y - ny * pushOut }
      p2Tail sq rows phys a nvx nvy st.impacts st.rngIdx
    else
      ⟨{ a with active := false, cause := some .stuckInside }, true, st.impacts, st.rngIdx⟩
  else
    let a := { a with x := nextX, y := nextY }
    p2Tail sq rows phys a nvx nvy st.impacts st.rngIdx

/-- Mutable state of one phase-2 pass; `eccPts` is the phase-1 trajectory
array, which the source's pruning guard indexes by the phase-2 agent id. -/
structure P2State where
  agents : List Agent
  pts : List (List StreamlinePoint)
  eccPts : List (List StreamlinePoint)
  impacts : List OceanImpact
  flowU : List ℚ
  flowV : List ℚ
  flowC : List ℕ
  rngIdx : ℕ
deriving Repr

/-- Process one phase-2 agent for one outer step.  Note the source guards the
pruning check with `agentPoints[agent.id]`, the PHASE-1 trajectory array, so
the guard reads the ECC trajectory of the same numeric id and skips the check
entirely when that id exceeds the phase-1 agent count. -/
def processAgent2 (sq : ℚ → ℚ) (rng : ℕ → ℚ) (cols rows : ℕ)
    (field gX gY : List ℚ) (itcz : List ℚ) (phys : PhysicsParams)
    (s : P2State) (i : ℕ) : P2State :=
  let a := s.agents.getD i default
  let pruned :=
    if a.id < s.eccPts.length ∧ (s.eccPts.getD a.id []).length > 5 then
      updateAndCheckPruning sq cols rows s.flowU s.flowV s.flowC a.x a.y a.vx a.vy
    else
      (false, s.flowU, s.flowV, s.flowC)
  let s := { s with flowU := pruned.2.1, flowV := pruned.2.2.1, flowC := pruned.2.2.2 }
  if pruned.1 then
    { s with agents := s.agents.set i { a with active := false, cause := some .pruned } }
  else
    let r := (phase2Substep sq rng cols rows field gX gY itcz phys)^[10]
      ⟨a, false, s.impacts, s.rngIdx⟩
    let s := { s with agents := s.agents.set i r.agent, impacts := r.impacts, rngIdx := r.rngIdx }
    if r.dead then s
    else { s with pts := s.pts.set r.agent.id ((s.pts.getD r.agent.id []) ++ [mkPoint cols rows r.agent]) }

/-- One outer phase-2 step over the agents active at step start. -/
def phase2Step (sq : ℚ → ℚ) (rng : ℕ → ℚ) (cols rows : ℕ)
    (field gX gY : List ℚ) (itcz : List ℚ) (phys : PhysicsParams) (s : P2State) : P2State :=
  let ids := (List.range s.agents.length).filter fun i => (s.agents.getD i default).active
  ids.foldl (processAgent2 sq rng cols rows field gX gY itcz phys) s

/-- Phase-2 outer loop with early exit when no agent is active. -/
def phase2Loop (sq : ℚ → ℚ) (rng : ℕ → ℚ) (cols rows : ℕ)
    (field gX gY : List ℚ) (itcz : List ℚ) (phys : PhysicsParams) : ℕ → P2State → P2State
  | 0, s => s
  | fuel + 1, s =>
    if s.agents.all (fun a => !a.active) then s
    else phase2Loop sq rng cols rows field gX gY itcz phys fuel
      (phase2Step sq rng cols rows field gX gY itcz phys s)

/-- Phase-2 spawn: every phase-1 impact point yields one `EC_N` agent
(upward drift) and one `EC_S` agent (downward drift), both at the recorded
safe spawn coordinate, with ids renumbered from 0. -/
def ecSpawnAgents (phys : PhysicsParams) (temps : List ImpactPointTemp) : List Agent :=
  temps.foldl
    (fun acc ip =>
      acc ++ [⟨acc.length, true, ip.x, ip.y, -phys.oceanBaseSpeed * (1/2),
                -phys.oceanEcPolewardDrift, 2, .EC_N, none⟩,
              ⟨acc.length + 1, true, ip.x, ip.y, -phys.oceanBaseSpeed * (1/2),
                phys.oceanEcPolewardDrift, 2, .EC_S, none⟩])
    []

/-- Output tag of a phase-2 agent's streamline. -/
def ecStreamType (a : Agent) : StreamType :=
  if a.type = .EC_N then .split_n else .split_s

/-- Everything one simulated month produces, with the internal phase results
exposed for specification. -/
structure MonthResult where
  eccAgents : List Agent
  eccPts : List (List StreamlinePoint)
  temps : List ImpactPointTemp
  ecAgentsInit : List Agent
  ecAgents : List Agent
  ecPts : List (List StreamlinePoint)
  impacts : List OceanImpact
  lines : List OceanStreamline
  rngEnd : ℕ
deriving Repr

/-- Initial phase-1 state of a month: freshly spawned agents, their single
initial trajectory samples, empty impact and spawn lists, zeroed flow
grids. -/
def phase1Init (cols rows : ℕ) (field gX gY itcz : List ℚ) (phys : PhysicsParams) : P1State :=
  let agents0 := eccSpawnList cols rows field gX gY itcz phys
  ⟨agents0, agents0.map fun a => [mkPoint cols rows a], [], [],
    List.replicate (rows * cols) 0, List.replicate (rows * cols) 0,
    List.replicate (rows * cols) 0⟩

/-- Complete phase-1 pass of a month. -/
def phase1Run (sq : ℚ → ℚ) (cols rows : ℕ) (field gX gY itcz : List ℚ)
    (phys : PhysicsParams) : P1State :=
  phase1Loop sq cols rows field gX gY itcz phys phys.oceanStreamlineSteps
    (phase1Init cols rows field gX gY itcz phys)

/-- Initial phase-2 state of a month: agents spawned from the phase-1 safe
impact points, the flow grids and impact list carried over, the phase-1
trajectory array retained for the pruning guard. -/
def phase2Init (cols rows : ℕ) (phys : PhysicsParams) (s1 : P1State) (rngStart : ℕ) : P2State :=
  let ecInit := ecSpawnAgents phys s1.temps
  ⟨ecInit, ecInit.map fun a => [mkPoint cols rows a], s1.pts, s1.impacts,
    s1.flowU, s1.flowV, s1.flowC, rngStart⟩

/-- Complete phase-2 pass of a month. -/
def phase2Run (sq : ℚ → ℚ) (rng : ℕ → ℚ) (cols rows : ℕ) (field gX gY itcz : List ℚ)
    (phys : PhysicsParams) (s1 : P1State) (rngStart : ℕ) : P2State :=
  phase2Loop sq rng cols rows field gX gY itcz phys phys.oceanStreamlineSteps
    (phase2Init cols rows phys s1 rngStart)

/-- One simulated month of `computeOceanCurrents`: phase 1 (ECC) from the
spawn rule, streamline assembly, phase-2 spawning from the recorded safe
impact points, phase 2 (EC), and the final assembly.  The flow-pruning grids
are shared by both phases; `rngStart` is the number of `Math.random()` draws
consumed by earlier months. -/
def runMonth (sq : ℚ → ℚ) (rng : ℕ → ℚ) (cols rows : ℕ)
    (field gX gY : List ℚ) (itcz : List ℚ) (phys : PhysicsParams) (rngStart : ℕ) : MonthResult :=
  let s1 := phase1Run sq cols rows field gX gY itcz phys
  let lines1 := assembleLines s1.pts (fun _ => .main) s1.agents
  let s2 := phase2Run sq rng cols rows field gX gY itcz phys s1 rngStart
  let lines2 := assembleLines s2.pts ecStreamType s2.agents
  ⟨s1.agents, s1.pts, s1.temps, ecSpawnAgents phys s1.temps, s2.agents, s2.pts, s2.impacts,
    lines1 ++ lines2, s2.rngIdx⟩

/-- Grid write-back: the engine stores the smoothed collision field into
`grid[i].collisionMask` for every grid cell and touches nothing else. -/
def writeCollisionMask (grid : List GridCell) (field : List ℚ) : List GridCell :=
  (List.range grid.length).map fun i =>
    { grid.getD i default with collisionMask := field.getD i 0 }

/-- Full result of `computeOceanCurrents`; the mutation of the caller's grid
is modelled by returning the updated grid as `gridOut`. -/
structure OceanResult where
  streamlines : List (List OceanStreamline)
  impacts : List (List OceanImpact)
  diagnostics : List OceanDiagnosticLog
  gridOut : List GridCell
deriving Repr

/-- Top-level `computeOceanCurrents`: build and smooth the collision field,
write it back into the grid, derive the gradients, simulate the two target
months January (0) and July (6) in order (sharing the ambient random stream),
and return per-month streamlines and impacts with every other month empty.
The returned `diagnostics` list is the array the source declares and returns
without ever pushing to it. -/
def computeOceanCurrents (sq : ℚ → ℚ) (rng : ℕ → ℚ) (grid : List GridCell)
    (itczLines : List (List ℚ)) (phys : PhysicsParams) (config : SimulationConfig) : OceanResult :=
  let rows := config.resolutionLat
  let cols := config.resolutionLon
  let field := oceanCollisionField grid phys rows cols
  let gridOut := writeCollisionMask grid field
  let gX := distGradXField rows cols field
  let gY := distGradYField rows cols field
  let m0 := runMonth sq rng cols rows field gX gY (itczLines.getD 0 []) phys 0
  let m6 := runMonth sq rng cols rows field gX gY (itczLines.getD 6 []) phys m0.rngEnd
  { streamlines := (List.range 12).map fun m => if m = 0 then m0.lines else if m = 6 then m6.lines else []
    impacts := (List.range 12).map fun m => if m = 0 then m0.impacts else if m = 6 then m6.impacts else []
    diagnostics := []
    gridOut := gridOut }

instance : Inhabited OceanImpact := ⟨⟨0, 0, 0, 0, .ECC⟩⟩

instance : Inhabited ImpactPointTemp := ⟨⟨0, 0, 0, 0⟩⟩

/-! ### Concrete scenarios used by witnesses and counterexamples -/

/-- Physics parameters of the all-ocean scenario: base speed 1, no buffer, no
smoothing, flat deflection allowance, 7 outer steps. -/
def allOceanPhys : PhysicsParams :=
  { oceanBaseSpeed := 1, oceanCollisionBuffer := 0, oceanSmoothing := 0,
    oceanPatternForce := 1/10, oceanDeflectLat := 10, oceanStreamlineSteps := 7,
    oceanEcLatGap := 0, oceanEcPolewardDrift := 0, oceanEcPatternForce := 0,
    oceanEcDamping := 0 }

/-- All-ocean 64×2 grid: columns 0 and 1 deep (−1000), the rest shallow
(−10); every cell is open water. -/
def allOceanGrid : List GridCell :=
  (List.range (2 * 64)).map fun i => ⟨0, 0, if i % 64 < 2 then -1000 else -10, 0⟩

/-- Smoothed collision field of the all-ocean grid (zero smoothing passes). -/
def allOceanField : List ℚ := oceanCollisionField allOceanGrid allOceanPhys 2 64

/-- Flat ITCZ at latitude 0 for the all-ocean scenario. -/
def allOceanItcz : List ℚ := List.replicate 64 0

/-- ITCZ lines per month for the all-ocean scenario. -/
def allOceanItczLines : List (List ℚ) := [allOceanItcz, [], [], [], [], [], allOceanItcz]

/-- Gradient fields of the all-ocean scenario. -/
def allOceanGX : List ℚ := distGradXField 2 64 allOceanField

/-- Gradient fields of the all-ocean scenario. -/
def allOceanGY : List ℚ := distGradYField 2 64 allOceanField

/-- The July month run of the all-ocean scenario (identical to the January
run, and to the month-0 computation inside `computeOceanCurrents` on the same
inputs).  Two agents spawn by the gap-fill rule at the deep columns 0 and 1;
agent 0 is pruned at step 6 after drifting into the flow-grid cell cached by
agent 1. -/
def allOceanMonth : MonthResult :=
  runMonth ratSqrt (fun _ => 1) 64 2 allOceanField allOceanGX allOceanGY
    allOceanItcz allOceanPhys 0

/-! ### Small arithmetic lemmas about the JavaScript remainder -/

/-- Negating the dividend negates the truncated remainder. -/
theorem Int.neg_tmod' (a n : ℤ) : (-a).tmod n = -(a.tmod n) := by
  rw [Int.tmod_def, Int.tmod_def, Int.neg_tdiv]; ring

/-- The double-remainder wrap `((a % n) + n) % n` of JavaScript (truncated
remainders) computes the Euclidean modulo. -/
theorem tmod_wrap_eq_emod (a n : ℤ) (hn : 0 ≤ n) : ((a.tmod n) + n).tmod n = a % n := by
  rcases hn.lt_or_eq with h | h
  · have hub := Int.tmod_lt_of_pos a h
    have hlb : -n < a.tmod n := by
      rcases le_or_lt 0 a with ha | ha
      · have := Int.tmod_nonneg n ha
        linarith
      · have h2 := Int.tmod_lt_of_pos (-a) h
        rw [Int.neg_tmod'] at h2
        linarith
    have hsum : 0 ≤ a.tmod n + n := by linarith
    rw [Int.tmod_eq_emod hsum hn, Int.add_emod_self, Int.tmod_def]
    have hx : a - n * a.tdiv n = a + (-(a.tdiv n)) * n := by ring
    rw [hx, Int.add_mul_emod_self]
  · subst h
    simp

/-! ### Claim C3: collision-field construction -/

/-- Modelled from the claim's wording: the arithmetic mean of the 3×3
neighbourhood of cell `(r, c)`, with the column index wrapped by the
mathematical (Euclidean) modulo and the row index clamped to `[0, rows-1]`. -/
def specBoxMean (rows cols : ℕ) (f : List ℚ) (r c : ℕ) : ℚ :=
  (((List.range 3).flatMap fun (dri : ℕ) =>
    (List.range 3).map fun (dci : ℕ) =>
      let nr : ℤ := min (max ((r : ℤ) + ((dri : ℤ) - 1)) 0) ((rows : ℤ) - 1)
      let nc : ℤ := ((c : ℤ) + ((dci : ℤ) - 1)) % (cols : ℤ)
      f.getD (nr * (cols : ℤ) + nc).toNat 0).sum) / 9

/-- Modelled from the claim's wording: simultaneously replace every cell by
its 3×3 neighbourhood mean. -/
def specSmoothOnce (rows cols : ℕ) (f : List ℚ) : List ℚ :=
  (List.range rows).flatMap fun (r : ℕ) =>
    (List.range cols).map fun (c : ℕ) => specBoxMean rows cols f r c

/-- The source's smoothing pass coincides with the claim's neighbourhood
mean: the JavaScript wrap `((c+dc) % cols + cols) % cols` is the Euclidean
modulo, and `sum/count` always divides by 9. -/
theorem smoothStepField_eq_spec (rows cols : ℕ) (f : List ℚ) :
    smoothStepField rows cols f = specSmoothOnce rows cols f := by
  unfold smoothStepField specSmoothOnce specBoxMean
  refine List.flatMap_congr fun r _ => ?_
  refine List.map_congr_left fun c _ => ?_
  refine congrArg (fun z : ℚ => z / 9) ?_
  refine congrArg List.sum ?_
  refine List.flatMap_congr fun dri _ => ?_
  refine List.map_congr_left fun dci _ => ?_
  have h := tmod_wrap_eq_emod ((c : ℤ) + ((dci : ℤ) - 1)) (cols : ℤ) (by positivity)
  simp only [h]

/-- C3: `computeOceanCurrents` builds the collision field by initializing
`field[i] = distCoast[i] + oceanCollisionBuffer` and then applying exactly
`phys.oceanSmoothing` simultaneous 3×3 mean-smoothing passes, with columns
wrapped modulo `cols` and rows clamped to `[0, rows-1]`. -/
theorem c3_collision_field_is_iterated_box_mean (grid : List GridCell)
    (phys : PhysicsParams) (rows cols : ℕ) (h : grid.length = rows * cols) :
    oceanCollisionField grid phys rows cols =
      (specSmoothOnce rows cols)^[phys.oceanSmoothing]
        ((List.range (rows * cols)).map fun i =>
          (grid.getD i default).distCoast + phys.oceanCollisionBuffer) := by
  unfold oceanCollisionField
  have hstep : smoothStepField rows cols = specSmoothOnce rows cols := by
    funext f
    exact smoothStepField_eq_spec rows cols f
  have hinit : collisionFieldInit grid phys.oceanCollisionBuffer rows cols =
      (List.range (rows * cols)).map fun i =>
        (grid.getD i default).distCoast + phys.oceanCollisionBuffer := by
    unfold collisionFieldInit
    refine List.map_congr_left fun i hi => ?_
    rw [List.mem_range] at hi
    rw [if_pos (h ▸ hi)]
  rw [hstep, hinit]

/-- Witness for C3 at a concrete 1×2 grid with one smoothing pass. -/
theorem c3_witness :
    ([⟨0, 0, -7, 0⟩, ⟨0, 0, 3, 0⟩] : List GridCell).length = 1 * 2 ∧
    oceanCollisionField [⟨0, 0, -7, 0⟩, ⟨0, 0, 3, 0⟩]
        { oceanBaseSpeed := 1, oceanCollisionBuffer := 2, oceanSmoothing := 1,
          oceanPatternForce := 0, oceanDeflectLat := 0, oceanStreamlineSteps := 0,
          oceanEcLatGap := 0, oceanEcPolewardDrift := 0, oceanEcPatternForce := 0,
          oceanEcDamping := 0 } 1 2 =
      (specSmoothOnce 1 2)^[1]
        ((List.range (1 * 2)).map fun i =>
          (([⟨0, 0, -7, 0⟩, ⟨0, 0, 3, 0⟩] : List GridCell).getD i default).distCoast + 2) :=
  ⟨by decide, c3_collision_field_is_iterated_box_mean _ _ 1 2 (by decide)⟩

/-! ### Claim C5: phase-2 PD control and adaptive damping -/

/-- Reading of claim C5's final clause: inside the small window the damping is
driven so that at `errorY = 0` it equals the critical value `2*sqrt(k)`. -/
def c5StatedProp : Prop :=
  ∀ (sq : ℚ → ℚ) (k damping : ℚ), ecDampingAt sq k damping 0 = 2 * sq k

/-- C5 counterexample: at `k = 4` with an exact square root (`ratSqrt 4 = 2`,
so critical damping is 4) and configured damping 0, the code's damping at
`errorY = 0` is `max(0, 1.5 * 4) = 6`, not the critical value 4. -/
theorem c5_counterexample : ¬ c5StatedProp := by
  intro h
  have h4 := h ratSqrt 4 0
  have e1 : ecDampingAt ratSqrt 4 0 0 = 6 := by decide!
  have e2 : ratSqrt 4 = 2 := by decide!
  rw [e1, e2] at h4
  norm_num at h4

/-- C5 (amended): the phase-2 vertical acceleration is
`errorY*k − vy*damping`; outside the 3-row window the damping is the
configured `oceanEcDamping`, inside it the damping is blended linearly toward
`max(oceanEcDamping, 1.5 × (2·sqrt k))`, so at `errorY = 0` the damping in use
is `max(oceanEcDamping, 1.5 × criticalDamping)` rather than the critical value
itself. -/
theorem c5_pd_control_amended (sq : ℚ → ℚ) (k damping errorY vy : ℚ) :
    ecAccel sq k damping errorY vy = errorY * k - vy * ecDampingAt sq k damping errorY ∧
    (3 ≤ |errorY| → ecDampingAt sq k damping errorY = damping) ∧
    (|errorY| < 3 →
      ecDampingAt sq k damping errorY =
        damping * (1 - (3 - |errorY|) / 3) + max damping (2 * sq k * (3/2)) * ((3 - |errorY|) / 3)) ∧
    ecDampingAt sq k damping 0 = max damping (2 * sq k * (3/2)) := by
  refine ⟨by unfold ecAccel; ring, ?_, ?_, ?_⟩
  · intro h
    simp only [ecDampingAt]
    rw [if_neg (not_lt.mpr h)]
  · intro h
    simp only [ecDampingAt]
    rw [if_pos h]
  · simp only [ecDampingAt]
    norm_num

/-- Witness for C5's amended conditional clauses at concrete inputs. -/
theorem c5_witness :
    (3 : ℚ) ≤ |(5 : ℚ)| ∧ |(0 : ℚ)| < 3 ∧
    ecDampingAt ratSqrt 4 7 5 = 7 ∧ ecDampingAt ratSqrt 4 0 0 = 6 := by
  refine ⟨by norm_num, by norm_num, ?_, ?_⟩
  · rw [(c5_pd_control_amended ratSqrt 4 7 5 1).2.1 (by norm_num)]
  · rw [(c5_pd_control_amended ratSqrt 4 0 0 1).2.2.2]
    decide!

/-! ### Claim C9: frame effect on the grid -/

/-- Lookup lemma for the write-back: inside the grid, only `collisionMask`
changes. -/
theorem writeCollisionMask_getD (grid : List GridCell) (f : List ℚ) (i : ℕ)
    (h : i < grid.length) :
    (writeCollisionMask grid f).getD i default =
      { grid.getD i default with collisionMask := f.getD i 0 } := by
  unfold writeCollisionMask
  rw [List.getD_eq_getElem?_getD, List.getElem?_map, List.getElem?_range h]
  rfl

/-- C9: `computeOceanCurrents` writes the smoothed collision field into
`grid[i].collisionMask` for every cell and leaves every other grid field
untouched (the mutation is modelled by the returned `gridOut`; `phys` and
`config` are consumed read-only by construction of the embedding). -/
theorem c9_grid_mutation_frame (sq : ℚ → ℚ) (rng : ℕ → ℚ) (grid : List GridCell)
    (itczLines : List (List ℚ)) (phys : PhysicsParams) (config : SimulationConfig) :
    (computeOceanCurrents sq rng grid itczLines phys config).gridOut.length = grid.length ∧
    ∀ i, i < grid.length →
      ((computeOceanCurrents sq rng grid itczLines phys config).gridOut.getD i default).collisionMask
          = (oceanCollisionField grid phys config.resolutionLat config.resolutionLon).getD i 0 ∧
        ((computeOceanCurrents sq rng grid itczLines phys config).gridOut.getD i default).lat
          = (grid.getD i default).lat ∧
        ((computeOceanCurrents sq rng grid itczLines phys config).gridOut.getD i default).lon
          = (grid.getD i default).lon ∧
        ((computeOceanCurrents sq rng grid itczLines phys config).gridOut.getD i default).distCoast
          = (grid.getD i default).distCoast := by
  have hout : (computeOceanCurrents sq rng grid itczLines phys config).gridOut =
      writeCollisionMask grid (oceanCollisionField grid phys config.resolutionLat config.resolutionLon) := rfl
  constructor
  · rw [hout]
    unfold writeCollisionMask
    simp
  · intro i hi
    rw [hout, writeCollisionMask_getD grid _ i hi]
    exact ⟨rfl, rfl, rfl, rfl⟩

/-- Witness for C9 at a concrete 2-cell grid. -/
theorem c9_witness :
    (0 : ℕ) < ([⟨1, 2, -5, 0⟩, ⟨3, 4, -6, 0⟩] : List GridCell).length ∧
    ((computeOceanCurrents ratSqrt (fun _ => 1) [⟨1, 2, -5, 0⟩, ⟨3, 4, -6, 0⟩] []
        allOceanPhys ⟨2, 1⟩).gridOut.getD 0 default).collisionMask
      = (oceanCollisionField [⟨1, 2, -5, 0⟩, ⟨3, 4, -6, 0⟩] allOceanPhys 2 1).getD 0 0 :=
  ⟨by decide,
    ((c9_grid_mutation_frame ratSqrt (fun _ => 1) [⟨1, 2, -5, 0⟩, ⟨3, 4, -6, 0⟩] []
      allOceanPhys ⟨2, 1⟩).2 0 (by decide)).1⟩

/-! ### Claim C6: termination causes in the output -/

/-- C6: the source's `diagnostics` array is returned empty on every input —
no termination cause is ever attached to the returned data — while agents do
get deactivated (in the all-ocean scenario agent 0 is deactivated by the
pruning path).  The ghost `cause` field exists only in this embedding; the
program itself records nothing at any `active = false` site. -/
theorem c6_causes_never_reach_output :
    (∀ (sq : ℚ → ℚ) (rng : ℕ → ℚ) (grid : List GridCell) (itczLines : List (List ℚ))
        (phys : PhysicsParams) (config : SimulationConfig),
      (computeOceanCurrents sq rng grid itczLines phys config).diagnostics = []) ∧
    (allOceanMonth.eccAgents.getD 0 default).active = false := by
  refine ⟨fun _ _ _ _ _ _ => rfl, ?_⟩
  decide!

/-! ### Claims C4 and C10: the phase-1 spawn rule -/

/-- Per-column spawn condition extracted from the spawn loop of ocean.ts. -/
def eccSpawnCond (cols rows : ℕ) (field gX gY itcz : List ℚ) (c : ℕ) : Bool :=
  let r := getRowFromLat rows (itcz.getD c 0)
  if r < 0 ∨ (rows : ℚ) ≤ r then false
  else if (getEnvironment cols rows field gX gY (c : ℚ) r).dist > -20 then false
  else
    decide (field.getD (getIdx cols rows ((c : ℚ) - 1) (jsRound r : ℚ)) 0 > 0
      ∨ (cols / 64 ≠ 0 ∧ c % (cols / 64) = 0))

/-- The agent the spawn loop pushes for column `c` when it has already pushed
`i` agents. -/
def eccSpawnAgent (rows : ℕ) (itcz : List ℚ) (phys : PhysicsParams) (i c : ℕ) : Agent :=
  ⟨i, true, (c : ℚ), getRowFromLat rows (itcz.getD c 0), phys.oceanBaseSpeed, 0, 2, .ECC, none⟩

/-- One step of the spawn fold is an `if` on the extracted condition. -/
theorem eccSpawn_step_eq (cols rows : ℕ) (field gX gY itcz : List ℚ)
    (phys : PhysicsParams) (acc : List Agent) (c : ℕ) :
    (fun acc c =>
      let itczLat := itcz.getD c 0
      let r := getRowFromLat rows itczLat
      if r < 0 ∨ (rows : ℚ) ≤ r then acc
      else
        let env := getEnvironment cols rows field gX gY (c : ℚ) r
        if env.dist > -20 then acc
        else
          let westIdx := getIdx cols rows ((c : ℚ) - 1) (jsRound r : ℚ)
          let westIsWall := field.getD westIdx 0 > 0
          let shouldSpawn := westIsWall ∨ (cols / 64 ≠ 0 ∧ c % (cols / 64) = 0)
          if shouldSpawn then
            acc ++ [⟨acc.length, true, (c : ℚ), r, phys.oceanBaseSpeed, 0, 2, .ECC, none⟩]
          else acc) acc c =
      (if eccSpawnCond cols rows field gX gY itcz c then
        acc ++ [eccSpawnAgent rows itcz phys acc.length c]
      else acc) := by
  simp only [eccSpawnCond, eccSpawnAgent]
  by_cases h1 : getRowFromLat rows (itcz.getD c 0) < 0 ∨ (rows : ℚ) ≤ getRowFromLat rows (itcz.getD c 0)
  · rw [if_pos h1, if_pos h1]
    simp
  · rw [if_neg h1, if_neg h1]
    by_cases h2 : (getEnvironment cols rows field gX gY (c : ℚ)
        (getRowFromLat rows (itcz.getD c 0))).dist > -20
    · rw [if_pos h2, if_pos h2]
      simp
    · rw [if_neg h2, if_neg h2]
      by_cases h3 : field.getD (getIdx cols rows ((c : ℚ) - 1)
          (jsRound (getRowFromLat rows (itcz.getD c 0)) : ℚ)) 0 > 0
          ∨ (cols / 64 ≠ 0 ∧ c % (cols / 64) = 0)
      · rw [if_pos h3]
        simp only [decide_eq_true_eq]
        rw [if_pos h3]
      · rw [if_neg h3]
        simp only [decide_eq_true_eq]
        rw [if_neg h3]

/-- Generic fold lemma: counting spawned agents through the spawn fold. -/
theorem spawnFold_countP (cond : ℕ → Bool) (mk : ℕ → ℕ → Agent) (p : Agent → Bool)
    (q : ℕ → Bool) (hp : ∀ i c, p (mk i c) = q c) :
    ∀ (l : List ℕ) (acc : List Agent),
      ((l.foldl (fun acc c => if cond c then acc ++ [mk acc.length c] else acc) acc).countP p)
        = acc.countP p + (l.filter cond).countP q
  | [], acc => by simp
  | c :: l, acc => by
    simp only [List.foldl_cons, List.filter_cons]
    by_cases h : cond c
    · rw [if_pos h, spawnFold_countP cond mk p q hp l _, if_pos h]
      simp [List.countP_cons, List.countP_append, hp]
      omega
    · rw [if_neg h, spawnFold_countP cond mk p q hp l _, if_neg h]

/-- Generic fold lemma: every member of the spawn fold's result is either in
the seed accumulator or was spawned by some qualifying column. -/
theorem spawnFold_mem (cond : ℕ → Bool) (mk : ℕ → ℕ → Agent) :
    ∀ (l : List ℕ) (acc : List Agent) (a : Agent),
      (a ∈ l.foldl (fun acc c => if cond c then acc ++ [mk acc.length c] else acc) acc)
        → a ∈ acc ∨ ∃ c ∈ l, cond c ∧ ∃ i, a = mk i c
  | [], acc, a => by simp
  | c :: l, acc, a => by
    simp only [List.foldl_cons]
    by_cases h : cond c
    · rw [if_pos h]
      intro hmem
      rcases spawnFold_mem cond mk l _ a hmem with ha | ⟨c', hc', hcond, i, rfl⟩
      · rcases List.mem_append.mp ha with ha | ha
        · exact Or.inl ha
        · exact Or.inr ⟨c, List.mem_cons_self c l, h, acc.length, List.mem_singleton.mp ha⟩
      · exact Or.inr ⟨c', List.mem_cons_of_mem c hc', hcond, i, rfl⟩
    · rw [if_neg h]
      intro hmem
      rcases spawnFold_mem cond mk l _ a hmem with ha | ⟨c', hc', hcond, i, rfl⟩
      · exact Or.inl ha
      · exact Or.inr ⟨c', List.mem_cons_of_mem c hc', hcond, i, rfl⟩

/-- Counting occurrences in a range. -/
theorem count_range_eq_one {c n : ℕ} (h : c < n) : (List.range n).count c = 1 := by
  induction n with
  | zero => omega
  | succ n ih =>
    rw [List.range_succ, List.count_append]
    rcases Nat.lt_or_ge c n with h' | h'
    · rw [ih h', List.count_singleton]
      have : (n == c) = false := by simp; omega
      rw [this]
      simp
    · have hc : c = n := by omega
      subst hc
      rw [List.count_eq_zero_of_not_mem (by simp), List.count_singleton_self]

/-- The number of phase-1 agents spawned at column `c` is 1 when the
per-column condition holds and 0 otherwise. -/
theorem eccSpawnList_countP_col (cols rows : ℕ) (field gX gY itcz : List ℚ)
    (phys : PhysicsParams) (c : ℕ) (hc : c < cols) :
    (eccSpawnList cols rows field gX gY itcz phys).countP (fun a => decide (a.x = (c : ℚ)))
      = if eccSpawnCond cols rows field gX gY itcz c then 1 else 0 := by
  have hfun : (fun (acc : List Agent) (c : ℕ) =>
      let itczLat := itcz.getD c 0
      let r := getRowFromLat rows itczLat
      if r < 0 ∨ (rows : ℚ) ≤ r then acc
      else
        let env := getEnvironment cols rows field gX gY (c : ℚ) r
        if env.dist > -20 then acc
        else
          let westIdx := getIdx cols rows ((c : ℚ) - 1) (jsRound r : ℚ)
          let westIsWall := field.getD westIdx 0 > 0
          let shouldSpawn := westIsWall ∨ (cols / 64 ≠ 0 ∧ c % (cols / 64) = 0)
          if shouldSpawn then
            acc ++ [⟨acc.length, true, (c : ℚ), r, phys.oceanBaseSpeed, 0, 2, .ECC, none⟩]
          else acc) =
      fun acc c => if eccSpawnCond cols rows field gX gY itcz c then
        acc ++ [eccSpawnAgent rows itcz phys acc.length c]
      else acc := by
    funext acc c
    exact eccSpawn_step_eq cols rows field gX gY itcz phys acc c
  show ((List.range cols).foldl _ []).countP _ = _
  rw [hfun, spawnFold_countP (eccSpawnCond cols rows field gX gY itcz)
    (eccSpawnAgent rows itcz phys) _ (fun c' => decide ((c' : ℚ) = (c : ℚ))) (fun _ _ => rfl)]
  have hq : ((List.range cols).filter (eccSpawnCond cols rows field gX gY itcz)).countP
      (fun (c' : ℕ) => decide ((c' : ℚ) = (c : ℚ)))
      = ((List.range cols).filter (eccSpawnCond cols rows field gX gY itcz)).count c := by
    rw [List.count]
    refine List.countP_congr fun a _ => ?_
    simp only [decide_eq_true_eq, beq_iff_eq, Nat.cast_inj]
  rw [List.countP_nil, hq]
  by_cases hcond : eccSpawnCond cols rows field gX gY itcz c
  · rw [if_pos hcond, List.count_filter (by simpa using hcond)]
    simpa using count_range_eq_one hc
  · rw [if_neg hcond]
    have : c ∉ (List.range cols).filter (eccSpawnCond cols rows field gX gY itcz) := by
      simp [List.mem_filter, hcond]
    simpa using List.count_eq_zero_of_not_mem this

/-- Physics parameters of the wall scenario. -/
def wallPhys : PhysicsParams :=
  { oceanBaseSpeed := 1, oceanCollisionBuffer := 0, oceanSmoothing := 0,
    oceanPatternForce := 1/10, oceanDeflectLat := 10, oceanStreamlineSteps := 8,
    oceanEcLatGap := 0, oceanEcPolewardDrift := 0, oceanEcPatternForce := 0,
    oceanEcDamping := 0 }

/-- Wall scenario field: 8×3 grid, a north-south wall at column 2 (+30),
open ocean (−30) everywhere else. -/
def wallField : List ℚ :=
  (List.range (3 * 8)).map fun i => if i % 8 = 2 then 30 else -30

/-- Flat ITCZ at latitude 0 for the wall scenario (row 1 of 3). -/
def wallItcz : List ℚ := List.replicate 8 0

/-- Gradients of the wall scenario. -/
def wallGX : List ℚ := distGradXField 3 8 wallField

/-- Gradients of the wall scenario. -/
def wallGY : List ℚ := distGradYField 3 8 wallField

/-- Month run of the wall scenario: one ECC agent spawns at column 3 (west
neighbour is the wall), drifts east, wraps the seam and impacts the wall's
west face at step 6; its impact seeds exactly two phase-2 agents. -/
def wallMonth : MonthResult :=
  runMonth ratSqrt (fun _ => 1) 8 3 wallField wallGX wallGY wallItcz wallPhys 0

/-- Reading of claim C4, with "c is a multiple of `floor(cols/64)`" rendered
as divisibility, the way the claim states it. -/
def c4StatedProp : Prop :=
  ∀ (cols rows : ℕ) (field gX gY itcz : List ℚ) (phys : PhysicsParams) (c : ℕ),
    c < cols →
    0 ≤ getRowFromLat rows (itcz.getD c 0) →
    getRowFromLat rows (itcz.getD c 0) < (rows : ℚ) →
    ((getEnvironment cols rows field gX gY (c : ℚ) (getRowFromLat rows (itcz.getD c 0))).dist > -20 →
      (eccSpawnList cols rows field gX gY itcz phys).countP (fun a => decide (a.x = (c : ℚ))) = 0) ∧
    ((getEnvironment cols rows field gX gY (c : ℚ) (getRowFromLat rows (itcz.getD c 0))).dist ≤ -20 →
      ((eccSpawnList cols rows field gX gY itcz phys).countP (fun a => decide (a.x = (c : ℚ))) = 1 ↔
        (field.getD (getIdx cols rows ((c : ℚ) - 1)
            (jsRound (getRowFromLat rows (itcz.getD c 0)) : ℚ)) 0 > 0
          ∨ (cols / 64) ∣ c)))

/-- C4 counterexample: on a 32-column all-deep-ocean grid (columns are fewer
than 64, so the gap-fill interval is 0) the claim's divisibility reading
`0 ∣ 0` holds at column 0, so the claim promises a spawn there; the code's
JavaScript test `0 % 0 === 0` is false (`NaN` never equals 0) and spawns
nothing. -/
theorem c4_counterexample : ¬ c4StatedProp := by
  intro h
  have h2 := (h 32 3 (List.replicate 96 (-30)) (List.replicate 96 0) (List.replicate 96 0)
      (List.replicate 32 0) allOceanPhys 0 (by norm_num) (by decide!) (by decide!)).2
  have h3 := (h2 (by decide!)).mpr (Or.inr (dvd_refl 0))
  have h4 : (eccSpawnList 32 3 (List.replicate 96 (-30)) (List.replicate 96 0)
      (List.replicate 96 0) (List.replicate 32 0) allOceanPhys).countP
      (fun a => decide (a.x = ((0 : ℕ) : ℚ))) = 0 := by decide!
  rw [h4] at h3
  exact absurd h3 (by norm_num)

/-- C4 (amended): for every column whose ITCZ row lies inside the grid, the
column is skipped when the sampled field at the ITCZ row is above −20;
otherwise exactly one ECC agent spawns there if and only if the
immediately-west cell of the smoothed field is a wall or the gap-fill
interval `floor(cols/64)` is positive and divides the column index; and every
phase-1 agent comes from some such column. -/
theorem c4_spawn_rule_amended (cols rows : ℕ) (field gX gY itcz : List ℚ)
    (phys : PhysicsParams) (c : ℕ) (hc : c < cols)
    (h0 : 0 ≤ getRowFromLat rows (itcz.getD c 0))
    (h1 : getRowFromLat rows (itcz.getD c 0) < (rows : ℚ)) :
    ((getEnvironment cols rows field gX gY (c : ℚ) (getRowFromLat rows (itcz.getD c 0))).dist > -20 →
      (eccSpawnList cols rows field gX gY itcz phys).countP (fun a => decide (a.x = (c : ℚ))) = 0) ∧
    ((getEnvironment cols rows field gX gY (c : ℚ) (getRowFromLat rows (itcz.getD c 0))).dist ≤ -20 →
      ((eccSpawnList cols rows field gX gY itcz phys).countP (fun a => decide (a.x = (c : ℚ))) = 1 ↔
        (field.getD (getIdx cols rows ((c : ℚ) - 1)
            (jsRound (getRowFromLat rows (itcz.getD c 0)) : ℚ)) 0 > 0
          ∨ (0 < cols / 64 ∧ (cols / 64) ∣ c)))) ∧
    (∀ a ∈ eccSpawnList cols rows field gX gY itcz phys, ∃ c' : ℕ, c' < cols ∧
      a.x = (c' : ℚ) ∧ a.y = getRowFromLat rows (itcz.getD c' 0) ∧ a.type = .ECC) := by
  have hnr : ¬(getRowFromLat rows (itcz.getD c 0) < 0 ∨
      (rows : ℚ) ≤ getRowFromLat rows (itcz.getD c 0)) := by
    push_neg
    exact ⟨h0, h1⟩
  refine ⟨?_, ?_, ?_⟩
  · intro hd
    rw [eccSpawnList_countP_col cols rows field gX gY itcz phys c hc]
    have : eccSpawnCond cols rows field gX gY itcz c = false := by
      simp only [eccSpawnCond]
      rw [if_neg hnr, if_pos hd]
    rw [this]
    simp
  · intro hd
    rw [eccSpawnList_countP_col cols rows field gX gY itcz phys c hc]
    have hcond : eccSpawnCond cols rows field gX gY itcz c =
        decide (field.getD (getIdx cols rows ((c : ℚ) - 1)
            (jsRound (getRowFromLat rows (itcz.getD c 0)) : ℚ)) 0 > 0
          ∨ (cols / 64 ≠ 0 ∧ c % (cols / 64) = 0)) := by
      simp only [eccSpawnCond]
      rw [if_neg hnr, if_neg (not_lt.mpr hd)]
    rw [hcond]
    constructor
    · intro hone
      have : (field.getD (getIdx cols rows ((c : ℚ) - 1)
          (jsRound (getRowFromLat rows (itcz.getD c 0)) : ℚ)) 0 > 0
            ∨ (cols / 64 ≠ 0 ∧ c % (cols / 64) = 0)) := by
        by_contra hno
        rw [decide_eq_false hno] at hone
        simp at hone
      rcases this with hw | ⟨hg, hm⟩
      · exact Or.inl hw
      · exact Or.inr ⟨Nat.pos_of_ne_zero hg, Nat.dvd_iff_mod_eq_zero.mpr hm⟩
    · intro hyp
      have : (field.getD (getIdx cols rows ((c : ℚ) - 1)
          (jsRound (getRowFromLat rows (itcz.getD c 0)) : ℚ)) 0 > 0
            ∨ (cols / 64 ≠ 0 ∧ c % (cols / 64) = 0)) := by
        rcases hyp with hw | ⟨hg, hm⟩
        · exact Or.inl hw
        · exact Or.inr ⟨Nat.pos_iff_ne_zero.mp hg, Nat.dvd_iff_mod_eq_zero.mp hm⟩
      rw [decide_eq_true this]
      rfl
  · intro a ha
    have hfun : (fun (acc : List Agent) (c : ℕ) =>
        let itczLat := itcz.getD c 0
        let r := getRowFromLat rows itczLat
        if r < 0 ∨ (rows : ℚ) ≤ r then acc
        else
          let env := getEnvironment cols rows field gX gY (c : ℚ) r
          if env.dist > -20 then acc
          else
            let westIdx := getIdx cols rows ((c : ℚ) - 1) (jsRound r : ℚ)
            let westIsWall := field.getD westIdx 0 > 0
            let shouldSpawn := westIsWall ∨ (cols / 64 ≠ 0 ∧ c % (cols / 64) = 0)
            if shouldSpawn then
              acc ++ [⟨acc.length, true, (c : ℚ), r, phys.oceanBaseSpeed, 0, 2, .ECC, none⟩]
            else acc) =
        fun acc c => if eccSpawnCond cols rows field gX gY itcz c then
          acc ++ [eccSpawnAgent rows itcz phys acc.length c]
        else acc := by
      funext acc c
      exact eccSpawn_step_eq cols rows field gX gY itcz phys acc c
    have ha' : a ∈ (List.range cols).foldl
        (fun acc c => if eccSpawnCond cols rows field gX gY itcz c then
          acc ++ [eccSpawnAgent rows itcz phys acc.length c]
        else acc) [] := by
      show a ∈ (List.range cols).foldl _ []
      rw [← hfun]
      exact ha
    rcases spawnFold_mem (eccSpawnCond cols rows field gX gY itcz)
        (eccSpawnAgent rows itcz phys) (List.range cols) [] a ha' with h | ⟨c', hc', _, i, rfl⟩
    · simp at h
    · exact ⟨c', List.mem_range.mp hc', rfl, rfl, rfl⟩

/-- Witness for C4's amended spawn rule in the wall scenario: column 3's west
neighbour is the wall, so exactly one agent spawns there. -/
theorem c4_witness :
    (eccSpawnList 8 3 wallField wallGX wallGY wallItcz wallPhys).countP
      (fun a => decide (a.x = ((3 : ℕ) : ℚ))) = 1 :=
  ((c4_spawn_rule_amended 8 3 wallField wallGX wallGY wallItcz wallPhys 3
    (by norm_num) (by decide!) (by decide!)).2.1 (by decide!)).mpr (Or.inl (by decide!))

/-- C10: with fewer than 64 columns the gap-fill interval `floor(cols/64)` is
0, the JavaScript test `c % 0 === 0` never holds (`NaN` is never 0) and no
error is raised (the spawn loop is total); phase-1 agents then spawn exactly
at the in-range, open-water columns whose immediately-west cell is a wall. -/
theorem c10_gap_fill_interval_zero (cols rows : ℕ) (field gX gY itcz : List ℚ)
    (phys : PhysicsParams) (hcols : cols < 64) :
    cols / 64 = 0 ∧
    ∀ c, c < cols →
      ((eccSpawnList cols rows field gX gY itcz phys).countP (fun a => decide (a.x = (c : ℚ))) = 1
        ↔ (¬(getRowFromLat rows (itcz.getD c 0) < 0 ∨
              (rows : ℚ) ≤ getRowFromLat rows (itcz.getD c 0))
            ∧ (getEnvironment cols rows field gX gY (c : ℚ) (getRowFromLat rows (itcz.getD c 0))).dist ≤ -20
            ∧ field.getD (getIdx cols rows ((c : ℚ) - 1)
                (jsRound (getRowFromLat rows (itcz.getD c 0)) : ℚ)) 0 > 0)) := by
  have hz : cols / 64 = 0 := Nat.div_eq_of_lt hcols
  refine ⟨hz, fun c hc => ?_⟩
  rw [eccSpawnList_countP_col cols rows field gX gY itcz phys c hc]
  by_cases hr : (getRowFromLat rows (itcz.getD c 0) < 0 ∨
      (rows : ℚ) ≤ getRowFromLat rows (itcz.getD c 0))
  · have : eccSpawnCond cols rows field gX gY itcz c = false := by
      simp only [eccSpawnCond]
      rw [if_pos hr]
    rw [this]
    constructor
    · intro h
      simp at h
    · rintro ⟨habs, -, -⟩
      exact absurd hr habs
  · by_cases hd : (getEnvironment cols rows field gX gY (c : ℚ)
        (getRowFromLat rows (itcz.getD c 0))).dist > -20
    · have : eccSpawnCond cols rows field gX gY itcz c = false := by
        simp only [eccSpawnCond]
        rw [if_neg hr, if_pos hd]
      rw [this]
      constructor
      · intro h
        simp at h
      · rintro ⟨-, habs, -⟩
        exact absurd hd (not_lt.mpr habs)
    · have : eccSpawnCond cols rows field gX gY itcz c =
          decide (field.getD (getIdx cols rows ((c : ℚ) - 1)
            (jsRound (getRowFromLat rows (itcz.getD c 0)) : ℚ)) 0 > 0
              ∨ (cols / 64 ≠ 0 ∧ c % (cols / 64) = 0)) := by
        simp only [eccSpawnCond]
        rw [if_neg hr, if_neg hd]
      rw [this]
      constructor
      · intro h
        have hw : (field.getD (getIdx cols rows ((c : ℚ) - 1)
            (jsRound (getRowFromLat rows (itcz.getD c 0)) : ℚ)) 0 > 0
              ∨ (cols / 64 ≠ 0 ∧ c % (cols / 64) = 0)) := by
          by_contra hno
          rw [decide_eq_false hno] at h
          simp at h
        rcases hw with hw | ⟨hg, -⟩
        · exact ⟨hr, not_lt.mp hd, hw⟩
        · exact absurd hz hg
      · rintro ⟨-, -, hw⟩
        rw [decide_eq_true (Or.inl hw)]
        rfl

/-- Witness for C10 in the wall scenario (8 columns): the spawn at column 3
is produced exactly by the west-wall disjunct. -/
theorem c10_witness :
    (8 : ℕ) < 64 ∧
    (eccSpawnList 8 3 wallField wallGX wallGY wallItcz wallPhys).countP
      (fun a => decide (a.x = ((3 : ℕ) : ℚ))) = 1 :=
  ⟨by norm_num,
    ((c10_gap_fill_interval_zero 8 3 wallField wallGX wallGY wallItcz wallPhys
      (by norm_num)).2 3 (by norm_num)).mpr ⟨by decide!, by decide!, by decide!⟩⟩

/-! ### Claim C8: streamline emission threshold -/

/-- Membership in the streamline assembly fold. -/
theorem assembleLines_mem_aux (pts : List (List StreamlinePoint)) (ty : Agent → StreamType) :
    ∀ (agents : List Agent) (acc : List OceanStreamline) (sl : OceanStreamline),
      (sl ∈ agents.foldl
        (fun acc a =>
          if (pts.getD a.id []).length > 5 then
            acc ++ [⟨pts.getD a.id [], a.strength, ty a⟩]
          else acc) acc)
        ↔ sl ∈ acc ∨ ∃ a ∈ agents, (pts.getD a.id []).length > 5
            ∧ sl = ⟨pts.getD a.id [], a.strength, ty a⟩
  | [], acc, sl => by simp
  | a :: agents, acc, sl => by
    simp only [List.foldl_cons]
    by_cases h : (pts.getD a.id []).length > 5
    · rw [if_pos h, assembleLines_mem_aux pts ty agents _ sl]
      simp only [List.mem_append, List.mem_cons, List.not_mem_nil, or_false]
      constructor
      · rintro (⟨hs | hs⟩ | ⟨b, hb, hlen, rfl⟩)
        · exact Or.inl hs
        · exact Or.inr ⟨a, Or.inl rfl, h, hs⟩
        · exact Or.inr ⟨b, Or.inr hb, hlen, rfl⟩
      · rintro (hs | ⟨b, hb | hb, hlen, rfl⟩)
        · exact Or.inl (Or.inl hs)
        · subst hb
          exact Or.inl (Or.inr rfl)
        · exact Or.inr ⟨b, hb, hlen, rfl⟩
    · rw [if_neg h, assembleLines_mem_aux pts ty agents _ sl]
      simp only [List.mem_cons]
      constructor
      · rintro (hs | ⟨b, hb, hlen, rfl⟩)
        · exact Or.inl hs
        · exact Or.inr ⟨b, Or.inr hb, hlen, rfl⟩
      · rintro (hs | ⟨b, hb | hb, hlen, rfl⟩)
        · exact Or.inl hs
        · subst hb
          exact absurd hlen h
        · exact Or.inr ⟨b, hb, hlen, rfl⟩

/-- Membership in `assembleLines`. -/
theorem assembleLines_mem (pts : List (List StreamlinePoint)) (ty : Agent → StreamType)
    (agents : List Agent) (sl : OceanStreamline) :
    sl ∈ assembleLines pts ty agents
      ↔ ∃ a ∈ agents, (pts.getD a.id []).length > 5
          ∧ sl = ⟨pts.getD a.id [], a.strength, ty a⟩ := by
  rw [assembleLines, assembleLines_mem_aux pts ty agents [] sl]
  simp

/-- Phase-2 streamline tags are never `main`. -/
theorem ecStreamType_ne_main (a : Agent) : ecStreamType a ≠ .main := by
  unfold ecStreamType
  split_ifs <;> intro h <;> cases h

/-- C8: a phase-1 trajectory is emitted as a `main` streamline, and a phase-2
trajectory as a `split_n`/`split_s` streamline, exactly when it holds
strictly more than 5 samples. -/
theorem c8_streamline_threshold (sq : ℚ → ℚ) (rng : ℕ → ℚ) (cols rows : ℕ)
    (field gX gY itcz : List ℚ) (phys : PhysicsParams) (rs : ℕ) :
    (∀ a ∈ (runMonth sq rng cols rows field gX gY itcz phys rs).eccAgents,
      ((⟨(runMonth sq rng cols rows field gX gY itcz phys rs).eccPts.getD a.id [],
          a.strength, .main⟩ : OceanStreamline)
          ∈ (runMonth sq rng cols rows field gX gY itcz phys rs).lines
        ↔ ((runMonth sq rng cols rows field gX gY itcz phys rs).eccPts.getD a.id []).length > 5)) ∧
    (∀ a ∈ (runMonth sq rng cols rows field gX gY itcz phys rs).ecAgents,
      ((⟨(runMonth sq rng cols rows field gX gY itcz phys rs).ecPts.getD a.id [],
          a.strength, ecStreamType a⟩ : OceanStreamline)
          ∈ (runMonth sq rng cols rows field gX gY itcz phys rs).lines
        ↔ ((runMonth sq rng cols rows field gX gY itcz phys rs).ecPts.getD a.id []).length > 5)) := by
  have hlines : (runMonth sq rng cols rows field gX gY itcz phys rs).lines =
      assembleLines (runMonth sq rng cols rows field gX gY itcz phys rs).eccPts (fun _ => .main)
        (runMonth sq rng cols rows field gX gY itcz phys rs).eccAgents
      ++ assembleLines (runMonth sq rng cols rows field gX gY itcz phys rs).ecPts ecStreamType
        (runMonth sq rng cols rows field gX gY itcz phys rs).ecAgents := rfl
  constructor
  · intro a ha
    rw [hlines, List.mem_append]
    constructor
    · rintro (hs | hs)
      · rw [assembleLines_mem] at hs
        obtain ⟨b, -, hlen, heq⟩ := hs
        have : (runMonth sq rng cols rows field gX gY itcz phys rs).eccPts.getD a.id [] =
            (runMonth sq rng cols rows field gX gY itcz phys rs).eccPts.getD b.id [] :=
          congrArg OceanStreamline.points heq
        rw [this]
        exact hlen
      · rw [assembleLines_mem] at hs
        obtain ⟨b, -, -, heq⟩ := hs
        have := congrArg OceanStreamline.type heq
        exact absurd this.symm (ecStreamType_ne_main b)
    · intro hlen
      exact Or.inl ((assembleLines_mem _ _ _ _).mpr ⟨a, ha, hlen, rfl⟩)
  · intro a ha
    rw [hlines, List.mem_append]
    constructor
    · rintro (hs | hs)
      · rw [assembleLines_mem] at hs
        obtain ⟨b, -, -, heq⟩ := hs
        have := congrArg OceanStreamline.type heq
        exact absurd this (ecStreamType_ne_main a)
      · rw [assembleLines_mem] at hs
        obtain ⟨b, -, hlen, heq⟩ := hs
        have : (runMonth sq rng cols rows field gX gY itcz phys rs).ecPts.getD a.id [] =
            (runMonth sq rng cols rows field gX gY itcz phys rs).ecPts.getD b.id [] :=
          congrArg OceanStreamline.points heq
        rw [this]
        exact hlen
    · intro hlen
      exact Or.inr ((assembleLines_mem _ _ _ _).mpr ⟨a, ha, hlen, rfl⟩)

/-- Witness for C8 in the wall scenario: the ECC agent's 7-sample trajectory
is emitted as a `main` streamline. -/
theorem c8_witness :
    ((wallMonth.eccPts.getD (wallMonth.eccAgents.getD 0 default).id []).length > 5) ∧
    ((⟨wallMonth.eccPts.getD (wallMonth.eccAgents.getD 0 default).id [],
        (wallMonth.eccAgents.getD 0 default).strength, .main⟩ : OceanStreamline)
      ∈ wallMonth.lines) :=
  ⟨by decide!,
    ((c8_streamline_threshold ratSqrt (fun _ => 1) 8 3 wallField wallGX wallGY wallItcz
        wallPhys 0).1 (wallMonth.eccAgents.getD 0 default) (by decide!)).mpr (by decide!)⟩

/-! ### Claim C2: every ECC impact seeds exactly two phase-2 agents -/

/-- The phase-2 spawn record that phase 1 pushes for an ECC impact. -/
def tempOfImpact (cols rows : ℕ) (field gX gY : List ℚ) (ip : OceanImpact) : ImpactPointTemp :=
  ⟨findSafeSpawnX cols rows field gX gY ip.x ip.y, ip.y, getLatFromRow rows ip.y,
    getLonFromCol cols (findSafeSpawnX cols rows field gX gY ip.x ip.y)⟩

/-- The safe-spawn records derived from the ECC impacts of an impact list. -/
def tempsOfImpacts (cols rows : ℕ) (field gX gY : List ℚ) (imps : List OceanImpact) :
    List ImpactPointTemp :=
  (imps.filter fun ip => decide (ip.type = .ECC)).map (tempOfImpact cols rows field gX gY)

/-- Appending an ECC impact appends the matching safe-spawn record. -/
theorem tempsOfImpacts_append_ecc (cols rows : ℕ) (field gX gY : List ℚ)
    (l : List OceanImpact) (e : OceanImpact) (he : e.type = .ECC) :
    tempsOfImpacts cols rows field gX gY (l ++ [e]) =
      tempsOfImpacts cols rows field gX gY l ++ [tempOfImpact cols rows field gX gY e] := by
  simp [tempsOfImpacts, List.filter_append, he]

/-- Appending an EC impact leaves the safe-spawn records unchanged. -/
theorem tempsOfImpacts_append_ec (cols rows : ℕ) (field gX gY : List ℚ)
    (l : List OceanImpact) (e : OceanImpact) (he : e.type = .EC) :
    tempsOfImpacts cols rows field gX gY (l ++ [e]) =
      tempsOfImpacts cols rows field gX gY l := by
  simp [tempsOfImpacts, List.filter_append, he]

/-- The phase-1 tail passes the impact and spawn lists through unchanged. -/
theorem p1Tail_impacts_temps (sq : ℚ → ℚ) (rows : ℕ) (phys : PhysicsParams)
    (t : ℚ) (a : Agent) (nvx nvy : ℚ) (imps : List OceanImpact)
    (temps : List ImpactPointTemp) :
    (p1Tail sq rows phys t a nvx nvy imps temps).impacts = imps ∧
    (p1Tail sq rows phys t a nvx nvy imps temps).temps = temps := by
  simp only [p1Tail]
  split_ifs <;> exact ⟨rfl, rfl⟩

/-- The lockstep invariant of the phase-1 sub-step: the spawn record list is
always the image of the ECC impacts, because the single code site that pushes
an impact pushes the matching record. -/
theorem phase1Substep_lockstep (sq : ℚ → ℚ) (cols rows : ℕ) (field gX gY itcz : List ℚ)
    (phys : PhysicsParams) (st : Sub1)
    (h : st.temps = tempsOfImpacts cols rows field gX gY st.impacts) :
    (phase1Substep sq cols rows field gX gY itcz phys st).temps =
      tempsOfImpacts cols rows field gX gY
        (phase1Substep sq cols rows field gX gY itcz phys st).impacts := by
  simp only [phase1Substep]
  split_ifs <;>
    first
      | exact h
      | (show st.temps ++ _ = tempsOfImpacts cols rows field gX gY (st.impacts ++ _)
         rw [tempsOfImpacts_append_ecc cols rows field gX gY st.impacts _ rfl, ← h]
         rfl)
      | (rw [(p1Tail_impacts_temps _ _ _ _ _ _ _ _ _).1,
             (p1Tail_impacts_temps _ _ _ _ _ _ _ _ _).2]
         exact h)

/-- The lockstep invariant survives the ten sub-steps. -/
theorem phase1Substep_iterate_lockstep (sq : ℚ → ℚ) (cols rows : ℕ)
    (field gX gY itcz : List ℚ) (phys : PhysicsParams) :
    ∀ (n : ℕ) (st : Sub1),
      st.temps = tempsOfImpacts cols rows field gX gY st.impacts →
      ((phase1Substep sq cols rows field gX gY itcz phys)^[n] st).temps =
        tempsOfImpacts cols rows field gX gY
          ((phase1Substep sq cols rows field gX gY itcz phys)^[n] st).impacts
  | 0, st, h => h
  | n + 1, st, h => by
    rw [Function.iterate_succ_apply]
    exact phase1Substep_iterate_lockstep sq cols rows field gX gY itcz phys n _
      (phase1Substep_lockstep sq cols rows field gX gY itcz phys st h)

/-- The lockstep invariant survives one agent's outer-step processing. -/
theorem processAgent1_lockstep (sq : ℚ → ℚ) (cols rows : ℕ)
    (field gX gY itcz : List ℚ) (phys : PhysicsParams) (s : P1State) (i : ℕ)
    (h : s.temps = tempsOfImpacts cols rows field gX gY s.impacts) :
    (processAgent1 sq cols rows field gX gY itcz phys s i).temps =
      tempsOfImpacts cols rows field gX gY
        (processAgent1 sq cols rows field gX gY itcz phys s i).impacts := by
  simp only [processAgent1]
  split_ifs <;>
    first
      | exact h
      | exact phase1Substep_iterate_lockstep sq cols rows field gX gY itcz phys 10 _ h

/-- The lockstep invariant survives a fold over any id list. -/
theorem foldl_processAgent1_lockstep (sq : ℚ → ℚ) (cols rows : ℕ)
    (field gX gY itcz : List ℚ) (phys : PhysicsParams) :
    ∀ (l : List ℕ) (s : P1State),
      s.temps = tempsOfImpacts cols rows field gX gY s.impacts →
      (l.foldl (processAgent1 sq cols rows field gX gY itcz phys) s).temps =
        tempsOfImpacts cols rows field gX gY
          (l.foldl (processAgent1 sq cols rows field gX gY itcz phys) s).impacts
  | [], s, h => h
  | i :: l, s, h => by
    rw [List.foldl_cons]
    exact foldl_processAgent1_lockstep sq cols rows field gX gY itcz phys l _
      (processAgent1_lockstep sq cols rows field gX gY itcz phys s i h)

/-- The lockstep invariant survives the whole phase-1 loop. -/
theorem phase1Loop_lockstep (sq : ℚ → ℚ) (cols rows : ℕ)
    (field gX gY itcz : List ℚ) (phys : PhysicsParams) :
    ∀ (fuel : ℕ) (s : P1State),
      s.temps = tempsOfImpacts cols rows field gX gY s.impacts →
      (phase1Loop sq cols rows field gX gY itcz phys fuel s).temps =
        tempsOfImpacts cols rows field gX gY
          (phase1Loop sq cols rows field gX gY itcz phys fuel s).impacts
  | 0, s, h => h
  | fuel + 1, s, h => by
    rw [phase1Loop]
    split_ifs with hall
    · exact h
    · exact phase1Loop_lockstep sq cols rows field gX gY itcz phys fuel _
        (foldl_processAgent1_lockstep sq cols rows field gX gY itcz phys _ s h)

/-- The phase-2 tail passes the impact list through unchanged. -/
theorem p2Tail_impacts (sq : ℚ → ℚ) (rows : ℕ) (phys : PhysicsParams)
    (a : Agent) (nvx nvy : ℚ) (imps : List OceanImpact) (r : ℕ) :
    (p2Tail sq rows phys a nvx nvy imps r).impacts = imps := by
  simp only [p2Tail]
  split_ifs <;> rfl

set_option maxHeartbeats 2000000 in
/-- A phase-2 sub-step appends only EC-typed impacts: the ECC sub-list is
untouched. -/
theorem phase2Substep_filter_ecc (sq : ℚ → ℚ) (rng : ℕ → ℚ) (cols rows : ℕ)
    (field gX gY itcz : List ℚ) (phys : PhysicsParams) (st : Sub2) :
    ((phase2Substep sq rng cols rows field gX gY itcz phys st).impacts).filter
        (fun ip => decide (ip.type = .ECC)) =
      st.impacts.filter (fun ip => decide (ip.type = .ECC)) := by
  simp only [phase2Substep]
  split_ifs <;>
    (try rw [p2Tail_impacts]) <;>
    first
      | rfl
      | simp [List.filter_append]

/-- The ECC impacts survive the ten phase-2 sub-steps unchanged. -/
theorem phase2Substep_iterate_filter_ecc (sq : ℚ → ℚ) (rng : ℕ → ℚ) (cols rows : ℕ)
    (field gX gY itcz : List ℚ) (phys : PhysicsParams) :
    ∀ (n : ℕ) (st : Sub2),
      (((phase2Substep sq rng cols rows field gX gY itcz phys)^[n] st).impacts).filter
          (fun ip => decide (ip.type = .ECC)) =
        st.impacts.filter (fun ip => decide (ip.type = .ECC))
  | 0, st => rfl
  | n + 1, st => by
    rw [Function.iterate_succ_apply,
      phase2Substep_iterate_filter_ecc sq rng cols rows field gX gY itcz phys n _,
      phase2Substep_filter_ecc]

/-- The ECC impacts survive one phase-2 agent's processing unchanged. -/
theorem processAgent2_filter_ecc (sq : ℚ → ℚ) (rng : ℕ → ℚ) (cols rows : ℕ)
    (field gX gY itcz : List ℚ) (phys : PhysicsParams) (s : P2State) (i : ℕ) :
    ((processAgent2 sq rng cols rows field gX gY itcz phys s i).impacts).filter
        (fun ip => decide (ip.type = .ECC)) =
      s.impacts.filter (fun ip => decide (ip.type = .ECC)) := by
  simp only [processAgent2]
  split_ifs <;>
    first
      | rfl
      | exact phase2Substep_iterate_filter_ecc sq rng cols rows field gX gY itcz phys 10 _

/-- The ECC impacts survive a fold over any id list unchanged. -/
theorem foldl_processAgent2_filter_ecc (sq : ℚ → ℚ) (rng : ℕ → ℚ) (cols rows : ℕ)
    (field gX gY itcz : List ℚ) (phys : PhysicsParams) :
    ∀ (l : List ℕ) (s : P2State),
      ((l.foldl (processAgent2 sq rng cols rows field gX gY itcz phys) s).impacts).filter
          (fun ip => decide (ip.type = .ECC)) =
        s.impacts.filter (fun ip => decide (ip.type = .ECC))
  | [], s => rfl
  | i :: l, s => by
    rw [List.foldl_cons,
      foldl_processAgent2_filter_ecc sq rng cols rows field gX gY itcz phys l _,
      processAgent2_filter_ecc]

/-- The ECC impacts survive the whole phase-2 loop unchanged. -/
theorem phase2Loop_filter_ecc (sq : ℚ → ℚ) (rng : ℕ → ℚ) (cols rows : ℕ)
    (field gX gY itcz : List ℚ) (phys : PhysicsParams) :
    ∀ (fuel : ℕ) (s : P2State),
      ((phase2Loop sq rng cols rows field gX gY itcz phys fuel s).impacts).filter
          (fun ip => decide (ip.type = .ECC)) =
        s.impacts.filter (fun ip => decide (ip.type = .ECC))
  | 0, s => rfl
  | fuel + 1, s => by
    rw [phase2Loop]
    split_ifs with hall
    · rfl
    · exact Eq.trans
        (phase2Loop_filter_ecc sq rng cols rows field gX gY itcz phys fuel _)
        (foldl_processAgent2_filter_ecc sq rng cols rows field gX gY itcz phys _ s)

/-- The `EC_N` agent spawned for a safe impact point. -/
def ecAgentN (phys : PhysicsParams) (i : ℕ) (ip : ImpactPointTemp) : Agent :=
  ⟨i, true, ip.x, ip.y, -phys.oceanBaseSpeed * (1/2), -phys.oceanEcPolewardDrift, 2, .EC_N, none⟩

/-- The `EC_S` agent spawned for a safe impact point. -/
def ecAgentS (phys : PhysicsParams) (i : ℕ) (ip : ImpactPointTemp) : Agent :=
  ⟨i, true, ip.x, ip.y, -phys.oceanBaseSpeed * (1/2), phys.oceanEcPolewardDrift, 2, .EC_S, none⟩

/-- Structure of the phase-2 spawn fold: each safe impact point contributes
exactly one `EC_N` and one `EC_S` agent, in order, at consecutive ids. -/
theorem ecSpawn_fold_spec (phys : PhysicsParams) :
    ∀ (ts : List ImpactPointTemp) (acc : List Agent),
      ((ts.foldl (fun acc ip =>
          acc ++ [ecAgentN phys acc.length ip, ecAgentS phys (acc.length + 1) ip]) acc).length
        = acc.length + 2 * ts.length)
      ∧ (∀ j, j < acc.length →
          (ts.foldl (fun acc ip =>
            acc ++ [ecAgentN phys acc.length ip, ecAgentS phys (acc.length + 1) ip]) acc).getD j default
          = acc.getD j default)
      ∧ (∀ j, j < ts.length →
          ((ts.foldl (fun acc ip =>
              acc ++ [ecAgentN phys acc.length ip, ecAgentS phys (acc.length + 1) ip]) acc).getD
            (acc.length + 2 * j) default
            = ecAgentN phys (acc.length + 2 * j) (ts.getD j default))
          ∧ ((ts.foldl (fun acc ip =>
              acc ++ [ecAgentN phys acc.length ip, ecAgentS phys (acc.length + 1) ip]) acc).getD
            (acc.length + 2 * j + 1) default
            = ecAgentS phys (acc.length + 2 * j + 1) (ts.getD j default)))
  | [], acc => by
    refine ⟨by simp, fun j hj => rfl, fun j hj => absurd hj (Nat.not_lt_zero j)⟩
  | ip :: ts, acc => by
    rw [List.foldl_cons]
    obtain ⟨ih1, ih2, ih3⟩ := ecSpawn_fold_spec phys ts
      (acc ++ [ecAgentN phys acc.length ip, ecAgentS phys (acc.length + 1) ip])
    have hlen : (acc ++ [ecAgentN phys acc.length ip,
        ecAgentS phys (acc.length + 1) ip]).length = acc.length + 2 := by
      simp
    refine ⟨?_, ?_, ?_⟩
    · rw [ih1, hlen]
      simp only [List.length_cons]
      ring
    · intro j hj
      rw [ih2 j (by omega)]
      rw [List.getD_eq_getElem?_getD, List.getD_eq_getElem?_getD,
        List.getElem?_append_left hj]
    · intro j hj
      rcases Nat.eq_zero_or_pos j with rfl | hpos
      · constructor
        · simp only [Nat.mul_zero, Nat.add_zero]
          rw [ih2 acc.length (by omega), List.getD_eq_getElem?_getD,
            List.getElem?_append_right (Nat.le_refl _), Nat.sub_self]
          rfl
        · simp only [Nat.mul_zero, Nat.add_zero]
          rw [ih2 (acc.length + 1) (by omega), List.getD_eq_getElem?_getD,
            List.getElem?_append_right (by omega : acc.length ≤ acc.length + 1)]
          have hone : acc.length + 1 - acc.length = 1 := by omega
          rw [hone]
          rfl
      · obtain ⟨j', rfl⟩ := Nat.exists_eq_succ_of_ne_zero (Nat.pos_iff_ne_zero.mp hpos)
        obtain ⟨ihn, ihs⟩ := ih3 j' (by simpa using hj)
        have hidx : (acc ++ [ecAgentN phys acc.length ip,
            ecAgentS phys (acc.length + 1) ip]).length + 2 * j' = acc.length + 2 * (j' + 1) := by
          rw [hlen]
          ring
        constructor
        · rw [← hidx]
          rw [ihn, hidx]
          rfl
        · have hidx' : (acc ++ [ecAgentN phys acc.length ip,
              ecAgentS phys (acc.length + 1) ip]).length + 2 * j' + 1
              = acc.length + 2 * (j' + 1) + 1 := by
            rw [hlen]
            ring
          rw [← hidx']
          rw [ihs, hidx']
          rfl

/-- `ecSpawnAgents` is the spawn fold over the safe impact points. -/
theorem ecSpawnAgents_eq_fold (phys : PhysicsParams) (ts : List ImpactPointTemp) :
    ecSpawnAgents phys ts =
      ts.foldl (fun acc ip =>
        acc ++ [ecAgentN phys acc.length ip, ecAgentS phys (acc.length + 1) ip]) [] := rfl

/-- The spawn records a month hands to phase 2 are exactly the safe spawn
records of its ECC impacts. -/
theorem runMonth_temps (sq : ℚ → ℚ) (rng : ℕ → ℚ) (cols rows : ℕ)
    (field gX gY itcz : List ℚ) (phys : PhysicsParams) (rs : ℕ) :
    (runMonth sq rng cols rows field gX gY itcz phys rs).temps =
      tempsOfImpacts cols rows field gX gY
        (runMonth sq rng cols rows field gX gY itcz phys rs).impacts := by
  have h1 : (phase1Run sq cols rows field gX gY itcz phys).temps =
      tempsOfImpacts cols rows field gX gY (phase1Run sq cols rows field gX gY itcz phys).impacts :=
    phase1Loop_lockstep sq cols rows field gX gY itcz phys phys.oceanStreamlineSteps
      (phase1Init cols rows field gX gY itcz phys) rfl
  have h2 : ((phase2Run sq rng cols rows field gX gY itcz phys
        (phase1Run sq cols rows field gX gY itcz phys) rs).impacts).filter
        (fun ip => decide (ip.type = .ECC)) =
      ((phase1Run sq cols rows field gX gY itcz phys).impacts).filter
        (fun ip => decide (ip.type = .ECC)) :=
    phase2Loop_filter_ecc sq rng cols rows field gX gY itcz phys phys.oceanStreamlineSteps
      (phase2Init cols rows phys (phase1Run sq cols rows field gX gY itcz phys) rs)
  show (phase1Run sq cols rows field gX gY itcz phys).temps = _
  rw [h1]
  show _ = tempsOfImpacts cols rows field gX gY
    (phase2Run sq rng cols rows field gX gY itcz phys
      (phase1Run sq cols rows field gX gY itcz phys) rs).impacts
  unfold tempsOfImpacts
  rw [h2]

/-- C2: each ECC impact point recorded in a month gives rise to exactly two
phase-2 agents — the agent list is twice as long as the ECC impact list, and
the `j`-th ECC impact produces the `EC_N` agent at position `2j` and the
`EC_S` agent at position `2j+1`, both seeded at the safe spawn coordinate
(the impact's row `y`, with `x` backtracked westward by `findSafeSpawnX`). -/
theorem c2_each_impact_seeds_two_agents (sq : ℚ → ℚ) (rng : ℕ → ℚ) (cols rows : ℕ)
    (field gX gY itcz : List ℚ) (phys : PhysicsParams) (rs : ℕ) :
    (runMonth sq rng cols rows field gX gY itcz phys rs).ecAgentsInit.length =
      2 * ((runMonth sq rng cols rows field gX gY itcz phys rs).impacts.filter
        (fun ip => decide (ip.type = .ECC))).length ∧
    ∀ j, j < ((runMonth sq rng cols rows field gX gY itcz phys rs).impacts.filter
        (fun ip => decide (ip.type = .ECC))).length →
      ((runMonth sq rng cols rows field gX gY itcz phys rs).ecAgentsInit.getD (2 * j) default
        = ecAgentN phys (2 * j) (tempOfImpact cols rows field gX gY
            (((runMonth sq rng cols rows field gX gY itcz phys rs).impacts.filter
              (fun ip => decide (ip.type = .ECC))).getD j default)))
      ∧ ((runMonth sq rng cols rows field gX gY itcz phys rs).ecAgentsInit.getD (2 * j + 1) default
        = ecAgentS phys (2 * j + 1) (tempOfImpact cols rows field gX gY
            (((runMonth sq rng cols rows field gX gY itcz phys rs).impacts.filter
              (fun ip => decide (ip.type = .ECC))).getD j default))) := by
  have htemps := runMonth_temps sq rng cols rows field gX gY itcz phys rs
  have hinit : (runMonth sq rng cols rows field gX gY itcz phys rs).ecAgentsInit =
      ecSpawnAgents phys (runMonth sq rng cols rows field gX gY itcz phys rs).temps := rfl
  obtain ⟨hlen, -, hget⟩ := ecSpawn_fold_spec phys
    (runMonth sq rng cols rows field gX gY itcz phys rs).temps ([] : List Agent)
  have htlen : (runMonth sq rng cols rows field gX gY itcz phys rs).temps.length =
      ((runMonth sq rng cols rows field gX gY itcz phys rs).impacts.filter
        (fun ip => decide (ip.type = .ECC))).length := by
    rw [htemps]
    simp [tempsOfImpacts]
  have hitem : ∀ j, j < ((runMonth sq rng cols rows field gX gY itcz phys rs).impacts.filter
      (fun ip => decide (ip.type = .ECC))).length →
      (runMonth sq rng cols rows field gX gY itcz phys rs).temps.getD j default =
        tempOfImpact cols rows field gX gY
          (((runMonth sq rng cols rows field gX gY itcz phys rs).impacts.filter
            (fun ip => decide (ip.type = .ECC))).getD j default) := by
    intro j hj
    rw [htemps]
    unfold tempsOfImpacts
    rw [List.getD_eq_getElem?_getD, List.getD_eq_getElem?_getD, List.getElem?_map]
    rw [List.getElem?_eq_getElem hj]
    rfl
  constructor
  · rw [hinit, ecSpawnAgents_eq_fold, hlen, htlen]
    simp
  · intro j hj
    have hj' : j < (runMonth sq rng cols rows field gX gY itcz phys rs).temps.length := by
      rw [htlen]
      exact hj
    obtain ⟨hn, hs⟩ := hget j hj'
    constructor
    · rw [hinit, ecSpawnAgents_eq_fold]
      have := hn
      simp only [List.length_nil, Nat.zero_add] at this
      rw [this, hitem j hj]
    · rw [hinit, ecSpawnAgents_eq_fold]
      have := hs
      simp only [List.length_nil, Nat.zero_add] at this
      rw [this, hitem j hj]

set_option maxHeartbeats 1000000 in
/-- Witness for C2 in the wall scenario: the single ECC impact seeds exactly
the pair `EC_N`, `EC_S` at the safe spawn coordinate. -/
theorem c2_witness :
    (0 : ℕ) < (wallMonth.impacts.filter (fun ip => decide (ip.type = .ECC))).length ∧
    wallMonth.ecAgentsInit.length =
      2 * (wallMonth.impacts.filter (fun ip => decide (ip.type = .ECC))).length ∧
    wallMonth.ecAgentsInit.getD 0 default
      = ecAgentN wallPhys 0 (tempOfImpact 8 3 wallField wallGX wallGY
          ((wallMonth.impacts.filter (fun ip => decide (ip.type = .ECC))).getD 0 default)) :=
  ⟨by decide!,
    (c2_each_impact_seeds_two_agents ratSqrt (fun _ => 1) 8 3 wallField wallGX wallGY
      wallItcz wallPhys 0).1,
    by
      have h := ((c2_each_impact_seeds_two_agents ratSqrt (fun _ => 1) 8 3 wallField wallGX
        wallGY wallItcz wallPhys 0).2 0 (by decide!)).1
      exact h⟩

/-! ### Claim C7: all-ocean grids never record an impact -/

/-- Bounds of the JavaScript remainder for a positive modulus. -/
theorem jsFmod_bounds (a n : ℚ) (hn : 0 < n) : -n < jsFmod a n ∧ jsFmod a n < n := by
  unfold jsFmod jsTrunc
  have hcancel : n * (a / n) = a := mul_div_cancel₀ a (ne_of_gt hn)
  by_cases h : 0 ≤ a / n
  · rw [if_pos h]
    have hf0 : 0 ≤ a / n - ⌊a / n⌋ := by
      have := Int.fract_nonneg (a / n)
      rwa [Int.fract] at this
    have hf1 : a / n - ⌊a / n⌋ < 1 := by
      have := Int.fract_lt_one (a / n)
      rwa [Int.fract] at this
    have he : a - n * (⌊a / n⌋ : ℤ) = n * (a / n - ⌊a / n⌋) := by
      rw [mul_sub, hcancel]
    rw [he]
    constructor
    · nlinarith
    · nlinarith
  · rw [if_neg h]
    have hc1 : a / n ≤ (⌈a / n⌉ : ℚ) := Int.le_ceil (a / n)
    have hc2 : (⌈a / n⌉ : ℚ) < a / n + 1 := Int.ceil_lt_add_one (a / n)
    have he : a - n * (⌈a / n⌉ : ℤ) = n * (a / n - ⌈a / n⌉) := by
      rw [mul_sub, hcancel]
    rw [he]
    constructor
    · nlinarith
    · nlinarith

/-- The JavaScript remainder of a nonnegative number by a positive modulus
lies in `[0, n)`. -/
theorem jsFmod_nonneg_bounds (b n : ℚ) (hb : 0 ≤ b) (hn : 0 < n) :
    0 ≤ jsFmod b n ∧ jsFmod b n < n := by
  unfold jsFmod jsTrunc
  have hdiv : 0 ≤ b / n := div_nonneg hb (le_of_lt hn)
  rw [if_pos hdiv]
  have hcancel : n * (b / n) = b := mul_div_cancel₀ b (ne_of_gt hn)
  have hf0 : 0 ≤ b / n - ⌊b / n⌋ := by
    have := Int.fract_nonneg (b / n)
    rwa [Int.fract] at this
  have hf1 : b / n - ⌊b / n⌋ < 1 := by
    have := Int.fract_lt_one (b / n)
    rwa [Int.fract] at this
  have he : b - n * (⌊b / n⌋ : ℤ) = n * (b / n - ⌊b / n⌋) := by
    rw [mul_sub, hcancel]
  rw [he]
  constructor
  · nlinarith
  · nlinarith

/-- The double-wrap of `getIdx` lands in `[0, cols)`. -/
theorem jsWrap_bounds (a : ℚ) (n : ℚ) (hn : 0 < n) :
    0 ≤ jsFmod (jsFmod a n + n) n ∧ jsFmod (jsFmod a n + n) n < n := by
  have h1 := jsFmod_bounds a n hn
  exact jsFmod_nonneg_bounds (jsFmod a n + n) n (by linarith [h1.1]) hn

/-- `getIdx` always produces an index inside the field buffer. -/
theorem getIdx_lt (cols rows : ℕ) (hc : 0 < cols) (hr : 0 < rows) (c r : ℚ) :
    getIdx cols rows c r < rows * cols := by
  unfold getIdx
  have hcolsQ : (0 : ℚ) < (cols : ℚ) := by exact_mod_cast hc
  have hcc := jsWrap_bounds c (cols : ℚ) hcolsQ
  have htc : (⌊jsFmod (jsFmod c (cols : ℚ) + (cols : ℚ)) (cols : ℚ)⌋).toNat < cols := by
    have hlt : ⌊jsFmod (jsFmod c (cols : ℚ) + (cols : ℚ)) (cols : ℚ)⌋ < (cols : ℤ) := by
      rw [Int.floor_lt]
      exact_mod_cast hcc.2
    omega
  have hrr1 : (0 : ℚ) ≤ max 0 (min ((rows : ℚ) - 1) r) := le_max_left 0 _
  have hrr2 : max 0 (min ((rows : ℚ) - 1) r) ≤ (rows : ℚ) - 1 := by
    apply max_le
    · have : (1 : ℚ) ≤ (rows : ℚ) := by exact_mod_cast hr
      linarith
    · exact min_le_left _ _
  have htr : (⌊max 0 (min ((rows : ℚ) - 1) r)⌋).toNat < rows := by
    have hlt : ⌊max 0 (min ((rows : ℚ) - 1) r)⌋ < (rows : ℤ) := by
      rw [Int.floor_lt]
      push_cast
      linarith
    omega
  calc (⌊max 0 (min ((rows : ℚ) - 1) r)⌋).toNat * cols
        + (⌊jsFmod (jsFmod c (cols : ℚ) + (cols : ℚ)) (cols : ℚ)⌋).toNat
      < (⌊max 0 (min ((rows : ℚ) - 1) r)⌋).toNat * cols + cols := by omega
    _ = ((⌊max 0 (min ((rows : ℚ) - 1) r)⌋).toNat + 1) * cols := by ring
    _ ≤ rows * cols := Nat.mul_le_mul_right cols htr

/-- On a field that is negative at every cell, every bilinear sample of the
environment is negative. -/
theorem env_dist_neg (cols rows : ℕ) (field gX gY : List ℚ)
    (hc : 0 < cols) (hr : 0 < rows)
    (hneg : ∀ i, i < rows * cols → field.getD i 0 < 0) (x y : ℚ) :
    (getEnvironment cols rows field gX gY x y).dist < 0 := by
  unfold getEnvironment
  have hfx0 : 0 ≤ x - (⌊x⌋ : ℤ) := by
    have := Int.fract_nonneg x
    rwa [Int.fract] at this
  have hfx1 : x - (⌊x⌋ : ℤ) < 1 := by
    have := Int.fract_lt_one x
    rwa [Int.fract] at this
  have hfy0 : 0 ≤ y - (⌊y⌋ : ℤ) := by
    have := Int.fract_nonneg y
    rwa [Int.fract] at this
  have hfy1 : y - (⌊y⌋ : ℤ) < 1 := by
    have := Int.fract_lt_one y
    rwa [Int.fract] at this
  have h00 := hneg _ (getIdx_lt cols rows hc hr ((⌊x⌋ : ℤ) : ℚ) ((⌊y⌋ : ℤ) : ℚ))
  have h10 := hneg _ (getIdx_lt cols rows hc hr (((⌊x⌋ : ℤ) : ℚ) + 1) ((⌊y⌋ : ℤ) : ℚ))
  have h01 := hneg _ (getIdx_lt cols rows hc hr ((⌊x⌋ : ℤ) : ℚ) (((⌊y⌋ : ℤ) : ℚ) + 1))
  have h11 := hneg _ (getIdx_lt cols rows hc hr (((⌊x⌋ : ℤ) : ℚ) + 1) (((⌊y⌋ : ℤ) : ℚ) + 1))
  show (fun v00 v10 v01 v11 =>
      v00 * (1 - (x - (⌊x⌋ : ℤ))) * (1 - (y - (⌊y⌋ : ℤ)))
        + v10 * (x - (⌊x⌋ : ℤ)) * (1 - (y - (⌊y⌋ : ℤ)))
        + v01 * (1 - (x - (⌊x⌋ : ℤ))) * (y - (⌊y⌋ : ℤ))
        + v11 * (x - (⌊x⌋ : ℤ)) * (y - (⌊y⌋ : ℤ))) _ _ _ _ < 0
  simp only []
  have w1 : (0 : ℚ) < 1 - (x - (⌊x⌋ : ℤ)) := by linarith
  have w2 : (0 : ℚ) < 1 - (y - (⌊y⌋ : ℤ)) := by linarith
  have t1 : field.getD (getIdx cols rows ((⌊x⌋ : ℤ) : ℚ) ((⌊y⌋ : ℤ) : ℚ)) 0
      * (1 - (x - (⌊x⌋ : ℤ))) * (1 - (y - (⌊y⌋ : ℤ))) < 0 :=
    mul_neg_of_neg_of_pos (mul_neg_of_neg_of_pos h00 w1) w2
  have t2 : field.getD (getIdx cols rows (((⌊x⌋ : ℤ) : ℚ) + 1) ((⌊y⌋ : ℤ) : ℚ)) 0
      * (x - (⌊x⌋ : ℤ)) * (1 - (y - (⌊y⌋ : ℤ))) ≤ 0 :=
    mul_nonpos_of_nonpos_of_nonneg
      (mul_nonpos_of_nonpos_of_nonneg (le_of_lt h10) hfx0) (le_of_lt w2)
  have t3 : field.getD (getIdx cols rows ((⌊x⌋ : ℤ) : ℚ) (((⌊y⌋ : ℤ) : ℚ) + 1)) 0
      * (1 - (x - (⌊x⌋ : ℤ))) * (y - (⌊y⌋ : ℤ)) ≤ 0 :=
    mul_nonpos_of_nonpos_of_nonneg
      (mul_nonpos_of_nonpos_of_nonneg (le_of_lt h01) (le_of_lt w1)) hfy0
  have t4 : field.getD (getIdx cols rows (((⌊x⌋ : ℤ) : ℚ) + 1) (((⌊y⌋ : ℤ) : ℚ) + 1)) 0
      * (x - (⌊x⌋ : ℤ)) * (y - (⌊y⌋ : ℤ)) ≤ 0 :=
    mul_nonpos_of_nonpos_of_nonneg
      (mul_nonpos_of_nonpos_of_nonneg (le_of_lt h11) hfx0) hfy0
  linarith

/-- Termination causes an ocean-only phase-1 run can produce: running out of
budget (`none`), the speed floor, the deflection bound, or pruning. -/
def CausesOK (a : Agent) : Prop :=
  a.cause = none ∨ a.cause = some .speedFloor ∨ a.cause = some .deflection
    ∨ a.cause = some .pruned

/-- The phase-1 tail either keeps the agent's cause or sets the speed floor
or deflection cause. -/
theorem p1Tail_cause (sq : ℚ → ℚ) (rows : ℕ) (phys : PhysicsParams) (t : ℚ)
    (a : Agent) (nvx nvy : ℚ) (imps : List OceanImpact) (temps : List ImpactPointTemp) :
    (p1Tail sq rows phys t a nvx nvy imps temps).agent.cause = a.cause ∨
    (p1Tail sq rows phys t a nvx nvy imps temps).agent.cause = some .speedFloor ∨
    (p1Tail sq rows phys t a nvx nvy imps temps).agent.cause = some .deflection := by
  simp only [p1Tail]
  split_ifs <;>
    first
      | exact Or.inr (Or.inl rfl)
      | exact Or.inr (Or.inr rfl)
      | exact Or.inl rfl

/-- On an all-negative field the phase-1 sub-step never records an impact or
spawn point and only ever sets the speed-floor or deflection cause. -/
theorem phase1Substep_ocean_frame (sq : ℚ → ℚ) (cols rows : ℕ)
    (field gX gY itcz : List ℚ) (phys : PhysicsParams)
    (hc : 0 < cols) (hr : 0 < rows)
    (hneg : ∀ i, i < rows * cols → field.getD i 0 < 0) (st : Sub1) :
    (phase1Substep sq cols rows field gX gY itcz phys st).impacts = st.impacts ∧
    (phase1Substep sq cols rows field gX gY itcz phys st).temps = st.temps ∧
    ((phase1Substep sq cols rows field gX gY itcz phys st).agent.cause = st.agent.cause ∨
      (phase1Substep sq cols rows field gX gY itcz phys st).agent.cause = some .speedFloor ∨
      (phase1Substep sq cols rows field gX gY itcz phys st).agent.cause = some .deflection) := by
  have hnp : ∀ x y : ℚ, ¬ (getEnvironment cols rows field gX gY x y).dist > 0 := fun x y =>
    not_lt.mpr (le_of_lt (env_dist_neg cols rows field gX gY hc hr hneg x y))
  simp only [phase1Substep]
  split_ifs <;>
    first
      | exact ⟨rfl, rfl, Or.inl rfl⟩
      | exact ⟨(p1Tail_impacts_temps _ _ _ _ _ _ _ _ _).1,
          (p1Tail_impacts_temps _ _ _ _ _ _ _ _ _).2, p1Tail_cause _ _ _ _ _ _ _ _ _⟩
      | exact absurd (‹_ ∧ _›.1) (hnp _ _)

/-- Cause-set preservation for a single cause transition. -/
theorem causesOK_trans {a b : Agent}
    (h : b.cause = a.cause ∨ b.cause = some .speedFloor ∨ b.cause = some .deflection)
    (ha : CausesOK a) : CausesOK b := by
  rcases h with h | h | h
  · rcases ha with h' | h' | h' | h'
    · exact Or.inl (h.trans h')
    · exact Or.inr (Or.inl (h.trans h'))
    · exact Or.inr (Or.inr (Or.inl (h.trans h')))
    · exact Or.inr (Or.inr (Or.inr (h.trans h')))
  · exact Or.inr (Or.inl h)
  · exact Or.inr (Or.inr (Or.inl h))

/-- The ocean-only frame survives the ten sub-steps. -/
theorem phase1Substep_iterate_ocean (sq : ℚ → ℚ) (cols rows : ℕ)
    (field gX gY itcz : List ℚ) (phys : PhysicsParams)
    (hc : 0 < cols) (hr : 0 < rows)
    (hneg : ∀ i, i < rows * cols → field.getD i 0 < 0) :
    ∀ (n : ℕ) (st : Sub1),
      ((phase1Substep sq cols rows field gX gY itcz phys)^[n] st).impacts = st.impacts ∧
      ((phase1Substep sq cols rows field gX gY itcz phys)^[n] st).temps = st.temps ∧
      (CausesOK st.agent →
        CausesOK ((phase1Substep sq cols rows field gX gY itcz phys)^[n] st).agent)
  | 0, st => ⟨rfl, rfl, id⟩
  | n + 1, st => by
    rw [Function.iterate_succ_apply]
    obtain ⟨f1, f2, f3⟩ := phase1Substep_ocean_frame sq cols rows field gX gY itcz phys
      hc hr hneg st
    obtain ⟨i1, i2, i3⟩ := phase1Substep_iterate_ocean sq cols rows field gX gY itcz phys
      hc hr hneg n (phase1Substep sq cols rows field gX gY itcz phys st)
    exact ⟨i1.trans f1, i2.trans f2, fun h => i3 (causesOK_trans f3 h)⟩

/-- An agent looked up in a pool of well-caused agents is well-caused. -/
theorem causesOK_getD {l : List Agent} (h : ∀ a ∈ l, CausesOK a) (i : ℕ) :
    CausesOK (l.getD i default) := by
  rcases Nat.lt_or_ge i l.length with hi | hi
  · refine h _ ?_
    rw [List.getD_eq_getElem?_getD, List.getElem?_eq_getElem hi]
    exact List.getElem_mem hi
  · rw [List.getD_eq_getElem?_getD, List.getElem?_eq_none (by omega)]
    exact Or.inl rfl

/-- The ocean-only frame survives one agent's outer-step processing. -/
theorem processAgent1_ocean (sq : ℚ → ℚ) (cols rows : ℕ)
    (field gX gY itcz : List ℚ) (phys : PhysicsParams)
    (hc : 0 < cols) (hr : 0 < rows)
    (hneg : ∀ i, i < rows * cols → field.getD i 0 < 0) (s : P1State) (i : ℕ) :
    (processAgent1 sq cols rows field gX gY itcz phys s i).impacts = s.impacts ∧
    (processAgent1 sq cols rows field gX gY itcz phys s i).temps = s.temps ∧
    ((∀ a ∈ s.agents, CausesOK a) →
      ∀ a ∈ (processAgent1 sq cols rows field gX gY itcz phys s i).agents, CausesOK a) := by
  obtain ⟨i1, i2, i3⟩ := phase1Substep_iterate_ocean sq cols rows field gX gY itcz phys
    hc hr hneg 10 ⟨s.agents.getD i default, false, s.impacts, s.temps⟩
  simp only [processAgent1]
  split_ifs <;>
    first
      | exact ⟨rfl, rfl, fun h a ha => by
          rcases List.mem_or_eq_of_mem_set ha with ha' | rfl
          · exact h a ha'
          · exact Or.inr (Or.inr (Or.inr rfl))⟩
      | exact ⟨i1, i2, fun h a ha => by
          rcases List.mem_or_eq_of_mem_set ha with ha' | rfl
          · exact h a ha'
          · exact i3 (causesOK_getD h i)⟩

/-- The ocean-only frame survives a fold over any id list. -/
theorem foldl_processAgent1_ocean (sq : ℚ → ℚ) (cols rows : ℕ)
    (field gX gY itcz : List ℚ) (phys : PhysicsParams)
    (hc : 0 < cols) (hr : 0 < rows)
    (hneg : ∀ i, i < rows * cols → field.getD i 0 < 0) :
    ∀ (l : List ℕ) (s : P1State),
      (l.foldl (processAgent1 sq cols rows field gX gY itcz phys) s).impacts = s.impacts ∧
      (l.foldl (processAgent1 sq cols rows field gX gY itcz phys) s).temps = s.temps ∧
      ((∀ a ∈ s.agents, CausesOK a) →
        ∀ a ∈ (l.foldl (processAgent1 sq cols rows field gX gY itcz phys) s).agents, CausesOK a)
  | [], s => ⟨rfl, rfl, id⟩
  | i :: l, s => by
    rw [List.foldl_cons]
    obtain ⟨f1, f2, f3⟩ := processAgent1_ocean sq cols rows field gX gY itcz phys
      hc hr hneg s i
    obtain ⟨i1, i2, i3⟩ := foldl_processAgent1_ocean sq cols rows field gX gY itcz phys
      hc hr hneg l (processAgent1 sq cols rows field gX gY itcz phys s i)
    exact ⟨i1.trans f1, i2.trans f2, fun h => i3 (f3 h)⟩

/-- The ocean-only frame survives the whole phase-1 loop. -/
theorem phase1Loop_ocean (sq : ℚ → ℚ) (cols rows : ℕ)
    (field gX gY itcz : List ℚ) (phys : PhysicsParams)
    (hc : 0 < cols) (hr : 0 < rows)
    (hneg : ∀ i, i < rows * cols → field.getD i 0 < 0) :
    ∀ (fuel : ℕ) (s : P1State),
      (phase1Loop sq cols rows field gX gY itcz phys fuel s).impacts = s.impacts ∧
      (phase1Loop sq cols rows field gX gY itcz phys fuel s).temps = s.temps ∧
      ((∀ a ∈ s.agents, CausesOK a) →
        ∀ a ∈ (phase1Loop sq cols rows field gX gY itcz phys fuel s).agents, CausesOK a)
  | 0, s => ⟨rfl, rfl, id⟩
  | fuel + 1, s => by
    rw [phase1Loop]
    split_ifs with hall
    · exact ⟨rfl, rfl, id⟩
    · obtain ⟨f1, f2, f3⟩ := foldl_processAgent1_ocean sq cols rows field gX gY itcz phys
        hc hr hneg ((List.range s.agents.length).filter fun i =>
          (s.agents.getD i default).active) s
      obtain ⟨i1, i2, i3⟩ := phase1Loop_ocean sq cols rows field gX gY itcz phys
        hc hr hneg fuel (phase1Step sq cols rows field gX gY itcz phys s)
      exact ⟨i1.trans f1, i2.trans f2, fun h => i3 (f3 h)⟩

/-- A phase-2 loop with no agents at all is the identity. -/
theorem phase2Loop_of_no_agents (sq : ℚ → ℚ) (rng : ℕ → ℚ) (cols rows : ℕ)
    (field gX gY itcz : List ℚ) (phys : PhysicsParams) :
    ∀ (fuel : ℕ) (s : P2State), s.agents = [] →
      phase2Loop sq rng cols rows field gX gY itcz phys fuel s = s
  | 0, s, _ => rfl
  | fuel + 1, s, h => by
    rw [phase2Loop, if_pos (by rw [h]; rfl)]

/-- Every freshly spawned phase-1 agent carries no cause. -/
theorem eccSpawnList_causes (cols rows : ℕ) (field gX gY itcz : List ℚ)
    (phys : PhysicsParams) :
    ∀ a ∈ eccSpawnList cols rows field gX gY itcz phys, CausesOK a := by
  intro a ha
  have hfun : (fun (acc : List Agent) (c : ℕ) =>
      let itczLat := itcz.getD c 0
      let r := getRowFromLat rows itczLat
      if r < 0 ∨ (rows : ℚ) ≤ r then acc
      else
        let env := getEnvironment cols rows field gX gY (c : ℚ) r
        if env.dist > -20 then acc
        else
          let westIdx := getIdx cols rows ((c : ℚ) - 1) (jsRound r : ℚ)
          let westIsWall := field.getD westIdx 0 > 0
          let shouldSpawn := westIsWall ∨ (cols / 64 ≠ 0 ∧ c % (cols / 64) = 0)
          if shouldSpawn then
            acc ++ [⟨acc.length, true, (c : ℚ), r, phys.oceanBaseSpeed, 0, 2, .ECC, none⟩]
          else acc) =
      fun acc c => if eccSpawnCond cols rows field gX gY itcz c then
        acc ++ [eccSpawnAgent rows itcz phys acc.length c]
      else acc := by
    funext acc c
    exact eccSpawn_step_eq cols rows field gX gY itcz phys acc c
  have ha' : a ∈ (List.range cols).foldl
      (fun acc c => if eccSpawnCond cols rows field gX gY itcz c then
        acc ++ [eccSpawnAgent rows itcz phys acc.length c]
      else acc) [] := by
    show a ∈ (List.range cols).foldl _ []
    rw [← hfun]
    exact ha
  rcases spawnFold_mem (eccSpawnCond cols rows field gX gY itcz)
      (eccSpawnAgent rows itcz phys) (List.range cols) [] a ha' with h | ⟨c', -, -, i, rfl⟩
  · simp at h
  · exact Or.inl rfl

/-- Reading of claim C7 as stated: on an all-negative (all-ocean) field no
ECC impact is recorded and every phase-1 agent either runs out the budget
(cause `none`) or terminates via the speed floor or the deflection bound. -/
def c7StatedProp : Prop :=
  ∀ (sq : ℚ → ℚ) (rng : ℕ → ℚ) (cols rows : ℕ) (field gX gY itcz : List ℚ)
    (phys : PhysicsParams) (rs : ℕ),
    0 < cols → 0 < rows →
    (∀ i, i < rows * cols → field.getD i 0 < 0) →
    ((runMonth sq rng cols rows field gX gY itcz phys rs).impacts.filter
        (fun ip => decide (ip.type = .ECC)) = [] ∧
      ∀ a ∈ (runMonth sq rng cols rows field gX gY itcz phys rs).eccAgents,
        a.cause = none ∨ a.cause = some .speedFloor ∨ a.cause = some .deflection)

/-- C7 counterexample: in the all-ocean scenario (every field value negative)
agent 0 is deactivated by the pruning path, a termination mode the claim's
list omits. -/
theorem c7_counterexample : ¬ c7StatedProp := by
  intro h
  have h2 := (h ratSqrt (fun _ => 1) 64 2 allOceanField allOceanGX allOceanGY allOceanItcz
    allOceanPhys 0 (by norm_num) (by norm_num) (by decide!)).2
  have hmem : allOceanMonth.eccAgents.getD 0 default ∈ allOceanMonth.eccAgents := by decide!
  have hc := h2 _ hmem
  have hval : (allOceanMonth.eccAgents.getD 0 default).cause = some Cause.pruned := by decide!
  rw [hval] at hc
  rcases hc with h' | h' | h' <;> simp at h'

/-- C7 (amended): on an all-negative field no impact of either kind is ever
recorded (the month's impact list is empty), no phase-2 spawn point or agent
exists, and every phase-1 agent either runs to the step budget (`none`) or
terminates via the speed floor, the deflection bound, or pruning. -/
theorem c7_all_ocean_amended (sq : ℚ → ℚ) (rng : ℕ → ℚ) (cols rows : ℕ)
    (field gX gY itcz : List ℚ) (phys : PhysicsParams) (rs : ℕ)
    (hc : 0 < cols) (hr : 0 < rows)
    (hneg : ∀ i, i < rows * cols → field.getD i 0 < 0) :
    (runMonth sq rng cols rows field gX gY itcz phys rs).impacts = [] ∧
    (runMonth sq rng cols rows field gX gY itcz phys rs).temps = [] ∧
    (runMonth sq rng cols rows field gX gY itcz phys rs).ecAgentsInit = [] ∧
    ∀ a ∈ (runMonth sq rng cols rows field gX gY itcz phys rs).eccAgents,
      a.cause = none ∨ a.cause = some .speedFloor ∨ a.cause = some .deflection
        ∨ a.cause = some .pruned := by
  obtain ⟨h1, h2, h3⟩ := phase1Loop_ocean sq cols rows field gX gY itcz phys hc hr hneg
    phys.oceanStreamlineSteps (phase1Init cols rows field gX gY itcz phys)
  have hs1imp : (phase1Run sq cols rows field gX gY itcz phys).impacts = [] := h1
  have hs1temps : (phase1Run sq cols rows field gX gY itcz phys).temps = [] := h2
  have hecinit : ecSpawnAgents phys (phase1Run sq cols rows field gX gY itcz phys).temps = [] := by
    rw [hs1temps]
    rfl
  have hloop2 : phase2Run sq rng cols rows field gX gY itcz phys
      (phase1Run sq cols rows field gX gY itcz phys) rs =
      phase2Init cols rows phys (phase1Run sq cols rows field gX gY itcz phys) rs :=
    phase2Loop_of_no_agents sq rng cols rows field gX gY itcz phys
      phys.oceanStreamlineSteps _ hecinit
  refine ⟨?_, hs1temps, hecinit, ?_⟩
  · show (phase2Run sq rng cols rows field gX gY itcz phys
      (phase1Run sq cols rows field gX gY itcz phys) rs).impacts = []
    rw [hloop2]
    exact hs1imp
  · exact h3 (eccSpawnList_causes cols rows field gX gY itcz phys)

/-- Witness for C7's amended theorem at a tiny 1×2 all-ocean grid. -/
theorem c7_witness :
    ((0 : ℕ) < 1 ∧ (0 : ℕ) < 2 ∧ ∀ i, i < 2 * 1 → ([-5, -5] : List ℚ).getD i 0 < 0) ∧
    (runMonth ratSqrt (fun _ => 1) 1 2 [-5, -5] [0, 0] [0, 0] [0] allOceanPhys 0).impacts = [] :=
  ⟨⟨Nat.one_pos, Nat.zero_lt_two, by decide!⟩,
    (c7_all_ocean_amended ratSqrt (fun _ => 1) 1 2 [-5, -5] [0, 0] [0, 0] [0] allOceanPhys 0
      Nat.one_pos Nat.zero_lt_two (by decide!)).1⟩

/-- The phase-2 tail's agent, death flag and draw counter do not depend on
the impact list it carries. -/
theorem p2Tail_rel (sq : ℚ → ℚ) (rows : ℕ) (phys : PhysicsParams) (a : Agent)
    (nvx nvy : ℚ) (imps₁ imps₂ : List OceanImpact) (ri : ℕ) :
    (p2Tail sq rows phys a nvx nvy imps₁ ri).agent =
      (p2Tail sq rows phys a nvx nvy imps₂ ri).agent ∧
    (p2Tail sq rows phys a nvx nvy imps₁ ri).dead =
      (p2Tail sq rows phys a nvx nvy imps₂ ri).dead ∧
    (p2Tail sq rows phys a nvx nvy imps₁ ri).rngIdx =
      (p2Tail sq rows phys a nvx nvy imps₂ ri).rngIdx := by
  simp only [p2Tail]
  split_ifs <;> exact ⟨rfl, rfl, rfl⟩

set_option maxHeartbeats 8000000 in
/-- The random stream only thins the recorded EC impacts: for two sub-step
states agreeing on agent, death flag and draw counter, the results under any
two streams again agree on agent, death flag and draw counter. -/
theorem phase2Substep_core (sq : ℚ → ℚ) (rng₁ rng₂ : ℕ → ℚ) (cols rows : ℕ)
    (field gX gY itcz : List ℚ) (phys : PhysicsParams) (s t : Sub2)
    (h1 : s.agent = t.agent) (h2 : s.dead = t.dead) (h3 : s.rngIdx = t.rngIdx) :
    (phase2Substep sq rng₁ cols rows field gX gY itcz phys s).agent =
      (phase2Substep sq rng₂ cols rows field gX gY itcz phys t).agent ∧
    (phase2Substep sq rng₁ cols rows field gX gY itcz phys s).dead =
      (phase2Substep sq rng₂ cols rows field gX gY itcz phys t).dead ∧
    (phase2Substep sq rng₁ cols rows field gX gY itcz phys s).rngIdx =
      (phase2Substep sq rng₂ cols rows field gX gY itcz phys t).rngIdx := by
  obtain ⟨a, d, i1, r1⟩ := s
  obtain ⟨a', d', i2, r2⟩ := t
  obtain rfl : a = a' := h1
  obtain rfl : d = d' := h2
  obtain rfl : r1 = r2 := h3
  simp only [phase2Substep]
  generalize (if a.type = AgentType.EC_N then itcz.getD ⌊jsFmod (jsFmod a.x (cols:ℚ) + (cols:ℚ)) (cols:ℚ)⌋.toNat 0 + phys.oceanEcLatGap else itcz.getD ⌊jsFmod (jsFmod a.x (cols:ℚ) + (cols:ℚ)) (cols:ℚ)⌋.toNat 0 - phys.oceanEcLatGap) = tl
  generalize (a.vy + ecAccel sq phys.oceanEcPatternForce phys.oceanEcDamping (getRowFromLat rows tl - a.y) a.vy) = w
  generalize (a.vx + -phys.oceanBaseSpeed * (1/20)) = u
  generalize (a.x + u * (1/20)) = nX
  generalize (a.y + w * (1/20)) = nY
  generalize getEnvironment cols rows field gX gY nX nY = E
  generalize bisectHit cols rows field gX gY a.x a.y nX nY = H
  generalize getEnvironment cols rows field gX gY H.1 H.2 = HE
  generalize sq (HE.gx * HE.gx + HE.gy * HE.gy) = g
  generalize sq (E.gx * E.gx + E.gy * E.gy) = g0
  split_ifs <;>
    first
      | exact ⟨rfl, rfl, rfl⟩
      | exact p2Tail_rel _ _ _ _ _ _ _ _ _

/-- The sub-step core agreement survives the ten iterations. -/
theorem phase2Substep_iterate_core (sq : ℚ → ℚ) (rng₁ rng₂ : ℕ → ℚ) (cols rows : ℕ)
    (field gX gY itcz : List ℚ) (phys : PhysicsParams) :
    ∀ (n : ℕ) (s t : Sub2), s.agent = t.agent → s.dead = t.dead → s.rngIdx = t.rngIdx →
      ((phase2Substep sq rng₁ cols rows field gX gY itcz phys)^[n] s).agent =
        ((phase2Substep sq rng₂ cols rows field gX gY itcz phys)^[n] t).agent ∧
      ((phase2Substep sq rng₁ cols rows field gX gY itcz phys)^[n] s).dead =
        ((phase2Substep sq rng₂ cols rows field gX gY itcz phys)^[n] t).dead ∧
      ((phase2Substep sq rng₁ cols rows field gX gY itcz phys)^[n] s).rngIdx =
        ((phase2Substep sq rng₂ cols rows field gX gY itcz phys)^[n] t).rngIdx
  | 0, s, t, h1, h2, h3 => ⟨h1, h2, h3⟩
  | n + 1, s, t, h1, h2, h3 => by
    rw [Function.iterate_succ_apply, Function.iterate_succ_apply]
    obtain ⟨g1, g2, g3⟩ := phase2Substep_core sq rng₁ rng₂ cols rows field gX gY itcz phys
      s t h1 h2 h3
    exact phase2Substep_iterate_core sq rng₁ rng₂ cols rows field gX gY itcz phys n _ _ g1 g2 g3

/-- Two phase-2 states agree on everything the trajectories can see: all
fields except the (randomly thinned) impact list. -/
def P2Rel (s t : P2State) : Prop :=
  s.agents = t.agents ∧ s.pts = t.pts ∧ s.eccPts = t.eccPts ∧ s.flowU = t.flowU ∧
    s.flowV = t.flowV ∧ s.flowC = t.flowC ∧ s.rngIdx = t.rngIdx

/-- Processing one agent under two different random streams preserves the
trajectory-visible agreement. -/
theorem processAgent2_rel (sq : ℚ → ℚ) (rng₁ rng₂ : ℕ → ℚ) (cols rows : ℕ)
    (field gX gY itcz : List ℚ) (phys : PhysicsParams) (s t : P2State) (i : ℕ)
    (h : P2Rel s t) :
    P2Rel (processAgent2 sq rng₁ cols rows field gX gY itcz phys s i)
      (processAgent2 sq rng₂ cols rows field gX gY itcz phys t i) := by
  obtain ⟨ag, pts, ecc, i1, fu, fv, fc, ri⟩ := s
  obtain ⟨ag', pts', ecc', i2, fu', fv', fc', ri'⟩ := t
  obtain ⟨h1, h2, h3, h4, h5, h6, h7⟩ := h
  obtain rfl : ag = ag' := h1
  obtain rfl : pts = pts' := h2
  obtain rfl : ecc = ecc' := h3
  obtain rfl : fu = fu' := h4
  obtain rfl : fv = fv' := h5
  obtain rfl : fc = fc' := h6
  obtain rfl : ri = ri' := h7
  obtain ⟨g1, g2, g3⟩ := phase2Substep_iterate_core sq rng₁ rng₂ cols rows field gX gY itcz
    phys 10 ⟨ag.getD i default, false, i1, ri⟩ ⟨ag.getD i default, false, i2, ri⟩ rfl rfl rfl
  simp only [processAgent2]
  rw [g1, g2, g3]
  split_ifs <;> exact ⟨rfl, rfl, rfl, rfl, rfl, rfl, rfl⟩

/-- The agreement survives a fold over any id list. -/
theorem foldl_processAgent2_rel (sq : ℚ → ℚ) (rng₁ rng₂ : ℕ → ℚ) (cols rows : ℕ)
    (field gX gY itcz : List ℚ) (phys : PhysicsParams) :
    ∀ (l : List ℕ) (s t : P2State), P2Rel s t →
      P2Rel (l.foldl (processAgent2 sq rng₁ cols rows field gX gY itcz phys) s)
        (l.foldl (processAgent2 sq rng₂ cols rows field gX gY itcz phys) t)
  | [], _, _, h => h
  | i :: l, s, t, h => by
    rw [List.foldl_cons, List.foldl_cons]
    exact foldl_processAgent2_rel sq rng₁ rng₂ cols rows field gX gY itcz phys l _ _
      (processAgent2_rel sq rng₁ rng₂ cols rows field gX gY itcz phys s t i h)

/-- The agreement survives one outer phase-2 step. -/
theorem phase2Step_rel (sq : ℚ → ℚ) (rng₁ rng₂ : ℕ → ℚ) (cols rows : ℕ)
    (field gX gY itcz : List ℚ) (phys : PhysicsParams) (s t : P2State) (h : P2Rel s t) :
    P2Rel (phase2Step sq rng₁ cols rows field gX gY itcz phys s)
      (phase2Step sq rng₂ cols rows field gX gY itcz phys t) := by
  have hag : s.agents = t.agents := h.1
  simp only [phase2Step]
  rw [hag]
  exact foldl_processAgent2_rel sq rng₁ rng₂ cols rows field gX gY itcz phys _ s t h

/-- The agreement survives the whole phase-2 loop. -/
theorem phase2Loop_rel (sq : ℚ → ℚ) (rng₁ rng₂ : ℕ → ℚ) (cols rows : ℕ)
    (field gX gY itcz : List ℚ) (phys : PhysicsParams) :
    ∀ (fuel : ℕ) (s t : P2State), P2Rel s t →
      P2Rel (phase2Loop sq rng₁ cols rows field gX gY itcz phys fuel s)
        (phase2Loop sq rng₂ cols rows field gX gY itcz phys fuel t)
  | 0, _, _, h => h
  | fuel + 1, s, t, h => by
    rw [phase2Loop, phase2Loop]
    have hag : s.agents = t.agents := h.1
    rw [hag]
    split_ifs with hall
    · exact h
    · exact phase2Loop_rel sq rng₁ rng₂ cols rows field gX gY itcz phys fuel _ _
        (phase2Step_rel sq rng₁ rng₂ cols rows field gX gY itcz phys s t h)

/-- One month's trajectory outputs — both phases' point lists, the assembled
streamlines, and the draw counter — are independent of the random stream. -/
theorem runMonth_rng_independent (sq : ℚ → ℚ) (rng₁ rng₂ : ℕ → ℚ) (cols rows : ℕ)
    (field gX gY itcz : List ℚ) (phys : PhysicsParams) (rs : ℕ) :
    (runMonth sq rng₁ cols rows field gX gY itcz phys rs).eccPts =
      (runMonth sq rng₂ cols rows field gX gY itcz phys rs).eccPts ∧
    (runMonth sq rng₁ cols rows field gX gY itcz phys rs).ecPts =
      (runMonth sq rng₂ cols rows field gX gY itcz phys rs).ecPts ∧
    (runMonth sq rng₁ cols rows field gX gY itcz phys rs).lines =
      (runMonth sq rng₂ cols rows field gX gY itcz phys rs).lines ∧
    (runMonth sq rng₁ cols rows field gX gY itcz phys rs).rngEnd =
      (runMonth sq rng₂ cols rows field gX gY itcz phys rs).rngEnd := by
  obtain ⟨q1, q2, q3, q4, q5, q6, q7⟩ :=
    phase2Loop_rel sq rng₁ rng₂ cols rows field gX gY itcz phys phys.oceanStreamlineSteps
      (phase2Init cols rows phys (phase1Run sq cols rows field gX gY itcz phys) rs)
      (phase2Init cols rows phys (phase1Run sq cols rows field gX gY itcz phys) rs)
      ⟨rfl, rfl, rfl, rfl, rfl, rfl, rfl⟩
  refine ⟨rfl, q2, ?_, q7⟩
  show assembleLines (phase1Run sq cols rows field gX gY itcz phys).pts _ _ ++
      assembleLines (phase2Run sq rng₁ cols rows field gX gY itcz phys _ rs).pts ecStreamType
        (phase2Run sq rng₁ cols rows field gX gY itcz phys _ rs).agents =
    assembleLines (phase1Run sq cols rows field gX gY itcz phys).pts _ _ ++
      assembleLines (phase2Run sq rng₂ cols rows field gX gY itcz phys _ rs).pts ecStreamType
        (phase2Run sq rng₂ cols rows field gX gY itcz phys _ rs).agents
  rw [show (phase2Run sq rng₁ cols rows field gX gY itcz phys
      (phase1Run sq cols rows field gX gY itcz phys) rs).pts =
    (phase2Run sq rng₂ cols rows field gX gY itcz phys
      (phase1Run sq cols rows field gX gY itcz phys) rs).pts from q2,
    show (phase2Run sq rng₁ cols rows field gX gY itcz phys
      (phase1Run sq cols rows field gX gY itcz phys) rs).agents =
    (phase2Run sq rng₂ cols rows field gX gY itcz phys
      (phase1Run sq cols rows field gX gY itcz phys) rs).agents from q1]

/-- C1: on identical inputs, two runs of `computeOceanCurrents` under any two
random streams produce identical streamline outputs for every month — the
single RNG use only thins the recorded EC impact points and never alters a
trajectory. -/
theorem c1_trajectories_rng_independent (sq : ℚ → ℚ) (rng₁ rng₂ : ℕ → ℚ)
    (grid : List GridCell) (itczLines : List (List ℚ)) (phys : PhysicsParams)
    (config : SimulationConfig) :
    (computeOceanCurrents sq rng₁ grid itczLines phys config).streamlines =
      (computeOceanCurrents sq rng₂ grid itczLines phys config).streamlines ∧
    (computeOceanCurrents sq rng₁ grid itczLines phys config).gridOut =
      (computeOceanCurrents sq rng₂ grid itczLines phys config).gridOut := by
  obtain ⟨-, -, hl0, he0⟩ := runMonth_rng_independent sq rng₁ rng₂ config.resolutionLon
    config.resolutionLat
    (oceanCollisionField grid phys config.resolutionLat config.resolutionLon)
    (distGradXField config.resolutionLat config.resolutionLon
      (oceanCollisionField grid phys config.resolutionLat config.resolutionLon))
    (distGradYField config.resolutionLat config.resolutionLon
      (oceanCollisionField grid phys config.resolutionLat config.resolutionLon))
    (itczLines.getD 0 []) phys 0
  obtain ⟨-, -, hl6, -⟩ := runMonth_rng_independent sq rng₁ rng₂ config.resolutionLon
    config.resolutionLat
    (oceanCollisionField grid phys config.resolutionLat config.resolutionLon)
    (distGradXField config.resolutionLat config.resolutionLon
      (oceanCollisionField grid phys config.resolutionLat config.resolutionLon))
    (distGradYField config.resolutionLat config.resolutionLon
      (oceanCollisionField grid phys config.resolutionLat config.resolutionLon))
    (itczLines.getD 6 []) phys
    ((runMonth sq rng₂ config.resolutionLon config.resolutionLat
      (oceanCollisionField grid phys config.resolutionLat config.resolutionLon)
      (distGradXField config.resolutionLat config.resolutionLon
        (oceanCollisionField grid phys config.resolutionLat config.resolutionLon))
      (distGradYField config.resolutionLat config.resolutionLon
        (oceanCollisionField grid phys config.resolutionLat config.resolutionLon))
      (itczLines.getD 0 []) phys 0).rngEnd)
  refine ⟨?_, rfl⟩
  simp only [computeOceanCurrents]
  rw [he0, hl0, hl6]

end ExoClim
